import Mathlib

/-!
# Integer stack character device

A shallow embedding of `kernel_module/int_stack.c`: the three file operations
`device_read` (pop), `device_write` (push) and `device_ioctl` (resize) acting on
the single `struct int_stack`.

Modelling conventions.

* `int` fields and locals are mathematical integers; every `+ 1` / `- 1` the
  handlers perform on them is wrapped to 32 bits (`wrap32`), the kernel being
  built with wrapping signed arithmetic.
* A pointer to a `kmalloc`ed block of `int`s is `some buf`, `NULL` is `none`.
  A load or store through `NULL` or outside the block is a fault: the handler
  does not return (`Outcome.oops`), and the state it had reached is recorded.
* Each handler runs its critical section under `stack->lock`; the embedding is
  the sequential semantics of one handler call on the locked state.
* `copy_from_user` / `copy_to_user` / `kmalloc` are environment calls whose
  result is an argument of the embedded handler.
* The client `userspace/kernel_stack.c` is embedded as `main`, over an abstract
  environment giving the results of `open`, `ioctl`, `write` and `read` and
  what `perror` and `close` leave in `errno`; `device_kernel` is the
  environment in which the calls reach the handlers. `spec_ending` is the
  specification side: the ending the spec assigns to a run of the client.
* For the lock discipline each handler has a traced variant that also lists
  its `mutex_lock`, `mutex_unlock` and field accesses in program order.
-/

namespace IntStack

/-! ## Machine integers and constants -/

/-- Two's-complement wrap of an integer to the range of a 32-bit `int`. -/
def wrap32 (x : Int) : Int := (x + 2147483648) % 4294967296 - 2147483648

/-- Largest value of a 32-bit `int`. -/
def INT_MAX : Int := 2147483647

/-- Errno value `ENOMEM`. -/
def ENOMEM : Int := 12

/-- Errno value `EFAULT`. -/
def EFAULT : Int := 14

/-- Errno value `EINVAL`. -/
def EINVAL : Int := 22

/-- Errno value `ERANGE`. -/
def ERANGE : Int := 34

/-- Value of `sizeof(int)`. -/
def sizeof_int : Nat := 4

/-- Request number `_IOW('s', 1, int)`, that is `0x40047301`. -/
def IOCTL_SET_SIZE : Nat := 1074033409

/-! ## State -/

/-- The `struct int_stack` of `int_stack.h` (the mutex is left out, see above). -/
structure int_stack where
  data : Option (List Int)
  top : Int
  max_size : Int
deriving DecidableEq

/-- Result of one handler call: either it returns `code` (with the value copied
out to the user buffer, if any) leaving the stack in `st`, or it faults on a
bad memory access, the stack being in `st` at that point. -/
inductive Outcome where
  | ret (code : Int) (st : int_stack) (out : Option Int)
  | oops (st : int_stack)
deriving DecidableEq

/-- The stack as `int_stack_init` leaves it: `data = NULL`, `top = -1`,
`max_size = 0`. -/
def int_stack_init : int_stack := int_stack.mk none (-1) 0

/-! ## Memory accesses -/

/-- Load `p[i]`. -/
def load (p : Option (List Int)) (i : Int) : Option Int :=
  match p with
  | none => none
  | some buf => if 0 ≤ i then buf[i.toNat]? else none

/-- Store `p[i] = v`; the result is the updated block, `none` on a fault. -/
def store (p : Option (List Int)) (i : Int) (v : Int) : Option (List Int) :=
  match p with
  | none => none
  | some buf => if 0 ≤ i ∧ i.toNat < buf.length then some (buf.set i.toNat v) else none

/-- The call `kmalloc(n * sizeof(int), GFP_KERNEL)`: `env = none` when the
allocation fails, `env = some junk` when it succeeds, the fresh block then
holding the arbitrary values `junk 0, junk 1, ...`. -/
def kmalloc (env : Option (Nat → Int)) (n : Nat) : Option (List Int) :=
  match env with
  | none => none
  | some junk => some ((List.range n).map junk)

/-! ## The handlers -/

/-- Handler `device_read`: pop. `copy_ok` is whether `copy_to_user` succeeds. -/
def device_read (s : int_stack) (length : Nat) (copy_ok : Bool) : Outcome :=
  if length < sizeof_int then Outcome.ret (-EINVAL) s none
  else if s.top = -1 then Outcome.ret 0 s none
  else
    match load s.data s.top with
    | none => Outcome.oops s
    | some value =>
      let s1 := int_stack.mk s.data (wrap32 (s.top - 1)) s.max_size
      if copy_ok then Outcome.ret sizeof_int s1 (some value)
      else Outcome.ret (-EFAULT) s1 none

/-- Handler `device_write`: push. `user` is the `int` that `copy_from_user`
fetches, `none` when the copy fails. -/
def device_write (s : int_stack) (length : Nat) (user : Option Int) : Outcome :=
  if length < sizeof_int then Outcome.ret (-EINVAL) s none
  else
    match user with
    | none => Outcome.ret (-EFAULT) s none
    | some value =>
      if 0 < s.max_size ∧ wrap32 (s.max_size - 1) ≤ s.top then
        Outcome.ret (-ERANGE) s none
      else
        let s1 := int_stack.mk s.data (wrap32 (s.top + 1)) s.max_size
        match store s1.data s1.top value with
        | none => Outcome.oops s1
        | some buf => Outcome.ret sizeof_int (int_stack.mk (some buf) s1.top s1.max_size) none

/-- The loop `for (i = 0; i < copy_size; i++) new_data[i] = stack->data[i];`
with `k` iterations left to run and the loop counter at `i`. -/
def copy_loop (old : Option (List Int)) : Nat → Nat → Option (List Int) → Option (List Int)
  | 0, _, new_data => new_data
  | k + 1, i, new_data =>
    match load old i with
    | none => none
    | some x =>
      match store new_data i x with
      | none => none
      | some blk => copy_loop old k (i + 1) (some blk)

/-- Handler `device_ioctl`. `user` is the `int` fetched from `arg` by
`copy_from_user` (`none` when the copy fails), `env` the behaviour of
`kmalloc`. -/
def device_ioctl (s : int_stack) (cmd : Nat) (user : Option Int)
    (env : Option (Nat → Int)) : Outcome :=
  if cmd = IOCTL_SET_SIZE then
    match user with
    | none => Outcome.ret (-EFAULT) s none
    | some size =>
      if size ≤ 0 then Outcome.ret (-EINVAL) s none
      else
        match kmalloc env size.toNat with
        | none => Outcome.ret (-ENOMEM) s none
        | some fresh =>
          let copy_size := if wrap32 (s.top + 1) < size then wrap32 (s.top + 1) else size
          let copied :=
            if s.data.isSome ∧ 0 < copy_size then
              copy_loop s.data copy_size.toNat 0 (some fresh)
            else some fresh
          match copied with
          | none => Outcome.oops s
          | some new_data =>
            let top1 := if size ≤ s.top then wrap32 (size - 1) else s.top
            Outcome.ret 0 (int_stack.mk (some new_data) top1 size) none
  else Outcome.ret (-EINVAL) s none

/-! ## Observations and request sequences -/

/-- Number of elements held: `top + 1`. -/
def count (s : int_stack) : Int := s.top + 1

/-- The elements at logical positions `0 .. count - 1`, oldest first. -/
def contents (s : int_stack) : List Int :=
  match s.data with
  | none => []
  | some buf => buf.take (s.top + 1).toNat

/-- An initialized (bounded) stack: a capacity has been set, the buffer has
exactly `max_size` slots, and `0 ≤ count ≤ max_size`. -/
def initialized (s : int_stack) : Prop :=
  match s.data with
  | none => False
  | some buf =>
    (buf.length : Int) = s.max_size ∧ 0 < s.max_size ∧ s.max_size ≤ INT_MAX ∧
      -1 ≤ s.top ∧ s.top < s.max_size

instance (s : int_stack) : Decidable (initialized s) := by
  unfold initialized
  cases s.data <;> infer_instance

/-- Push the values of `vs` one after the other with 4-byte write requests;
`none` as soon as one of the writes does not return `sizeof(int)`. -/
def push_all : int_stack → List Int → Option int_stack
  | s, [] => some s
  | s, v :: vs =>
    match device_write s sizeof_int (some v) with
    | Outcome.ret code s1 _ => if code = sizeof_int then push_all s1 vs else none
    | Outcome.oops _ => none

/-- Issue `k` read requests with a 4-byte buffer; the values read, in the order
they were read, and the final state. `none` as soon as one of the reads does
not deliver a value. -/
def pop_n : Nat → int_stack → Option (List Int × int_stack)
  | 0, s => some ([], s)
  | k + 1, s =>
    match device_read s sizeof_int true with
    | Outcome.ret _ s1 (some v) =>
      match pop_n k s1 with
      | some (vs, s2) => some (v :: vs, s2)
      | none => none
    | _ => none

/-- Read with a 4-byte buffer until a read returns 0 (the stack is empty),
at most `fuel` reads; the values read, in order, and the final state. `none`
if a read fails or the fuel runs out before the stack is empty. -/
def pop_until_empty : Nat → int_stack → Option (List Int × int_stack)
  | 0, _ => none
  | fuel + 1, s =>
    match device_read s sizeof_int true with
    | Outcome.ret code s1 out =>
      if code = 0 then some ([], s1)
      else
        match out, pop_until_empty fuel s1 with
        | some v, some (vs, s2) => some (v :: vs, s2)
        | _, _ => none
    | Outcome.oops _ => none

/-- A request on the device file. -/
inductive Request where
  | read (length : Nat) (copy_ok : Bool)
  | write (length : Nat) (user : Option Int)
  | ioctl (cmd : Nat) (user : Option Int) (env : Option (Nat → Int))

/-- Dispatch of a request to its handler (the `file_operations` table). -/
def exec (s : int_stack) : Request → Outcome
  | Request.read length copy_ok => device_read s length copy_ok
  | Request.write length user => device_write s length user
  | Request.ioctl cmd user env => device_ioctl s cmd user env

/-- Serve the requests in order. A handler that faults never returns and never
releases the lock, so no later request is served: the run ends with `none`. -/
def run : int_stack → List Request → Option int_stack
  | s, [] => some s
  | s, r :: rs =>
    match exec s r with
    | Outcome.ret _ s1 _ => run s1 rs
    | Outcome.oops _ => none

/-- A value of type `int`: it lies in the 32-bit two's-complement range. -/
def is_int (x : Int) : Prop := -2147483648 ≤ x ∧ x ≤ INT_MAX

instance (x : Int) : Decidable (is_int x) := by
  unfold is_int
  infer_instance

/-- The `int` payload a write or control request carries, when the copy from
user space delivers one, is a value of type `int`. -/
def payload_is_int : Request → Prop
  | Request.read _ _ => True
  | Request.write _ user =>
    match user with
    | none => True
    | some v => is_int v
  | Request.ioctl _ user _ =>
    match user with
    | none => True
    | some v => is_int v

instance (r : Request) : Decidable (payload_is_int r) :=
  match r with
  | Request.read _ _ => isTrue trivial
  | Request.write _ none => isTrue trivial
  | Request.write _ (some v) => inferInstanceAs (Decidable (is_int v))
  | Request.ioctl _ none _ => isTrue trivial
  | Request.ioctl _ (some v) _ => inferInstanceAs (Decidable (is_int v))

/-- The stack as a handler call leaves it, whether the call returned or
faulted. -/
def final_state : Outcome → int_stack
  | Outcome.ret _ st _ => st
  | Outcome.oops st => st

/-! ## The command-line client (`userspace/kernel_stack.c`) -/

/-- What the client prints, one constructor per output statement of `main`:
`print_usage`, the two `ERROR:` lines, `NULL`, a popped value, and `perror`
(which reports its message together with the `errno` it finds). -/
inductive Printed where
  | usage
  | size_error
  | full
  | null
  | value (v : Int)
  | perror (msg : String) (errno : Int)
deriving DecidableEq

/-- The calls the client makes into its environment, over an environment state
`σ`. `open`, `ioctl`, `write` and `read` give their return value, the value
`errno` has after the call, and the next state; a read also gives the `int` it
stored in the caller's buffer, if it stored one; `none` is a call that never
returns. The arguments are those the client chooses: the request number and
`size` for `ioctl`, the value and the length for `write`, the length for
`read`. `perror` and `close` are given the value of `errno` they find and give
the value they leave in it, which need not be the same. -/
structure Kernel (σ : Type) where
  sys_open : σ → Option (Int × Int × σ)
  sys_ioctl : σ → Nat → Int → Option (Int × Int × σ)
  sys_write : σ → Int → Nat → Option (Int × Int × σ)
  sys_read : σ → Nat → Option (Int × Int × Option Int × σ)
  lib_perror : σ → Int → Int × σ
  sys_close : σ → Int → Int × σ

/-- The loop `while ((ret = read(fd, &value, sizeof(int))) > 0) printf(...)` of
the `unwind` command, at most `fuel` reads; `value` is the current content of
the local variable. The result is `ret` and `errno` at loop exit, the lines
printed and the environment state. -/
def unwind_loop {σ : Type} (K : Kernel σ) :
    Nat → Int → σ → Option (Int × Int × List Printed × σ)
  | 0, _, _ => none
  | fuel + 1, value, st =>
    match K.sys_read st sizeof_int with
    | none => none
    | some (ret, errno, stored, st1) =>
      if 0 < ret then
        match unwind_loop K fuel (stored.getD value) st1 with
        | none => none
        | some (ret2, errno2, out, st2) =>
          some (ret2, errno2, Printed.value (stored.getD value) :: out, st2)
      else some (ret, errno, [], st1)

/-- The tail `perror(msg); return errno;` of a failed `open`: the value
returned is what `errno` holds after `perror`. -/
def fail_open {σ : Type} (K : Kernel σ) (msg : String) (errno : Int) (st : σ) :
    Option (Int × List Printed × σ) :=
  some ((K.lib_perror st errno).1, [Printed.perror msg errno], (K.lib_perror st errno).2)

/-- The tail `perror(msg); close(fd); return errno;` of a failed `ioctl`,
`write` or `read`, after the lines `out` were printed: the value returned is
what `errno` holds after `perror` and `close`. -/
def fail_io {σ : Type} (K : Kernel σ) (msg : String) (errno : Int) (out : List Printed)
    (st : σ) : Option (Int × List Printed × σ) :=
  some ((K.sys_close (K.lib_perror st errno).2 (K.lib_perror st errno).1).1,
    out ++ [Printed.perror msg errno],
    (K.sys_close (K.lib_perror st errno).2 (K.lib_perror st errno).1).2)

/-- The tail `close(fd); return code;` with a constant `code`, after the lines
`out` were printed. -/
def close_return {σ : Type} (K : Kernel σ) (code : Int) (errno : Int) (out : List Printed)
    (st : σ) : Option (Int × List Printed × σ) :=
  some (code, out, (K.sys_close st errno).2)

/-- The client's `main`: the value it returns, what it printed, and the
environment state it leaves. `atoi` is the C library function, `uninit` the
indeterminate initial content of the local `value`, `argv` the argument vector
(`argc` is its length). `errno` is read where the source reads it: right after
the failed `write` for the test against `ERANGE`, and after `perror` (and
`close`) for `return errno`. -/
def main {σ : Type} (K : Kernel σ) (atoi : String → Int) (uninit : Int) (fuel : Nat)
    (argv : List String) (st : σ) : Option (Int × List Printed × σ) :=
  if argv.length < 2 then some (1, [Printed.usage], st)
  else
    match K.sys_open st with
    | none => none
    | some (fd, errno, st1) =>
      if fd < 0 then fail_open K "Failed to open device" errno st1
      else if argv.getD 1 "" = "set-size" then
        if argv.length ≠ 3 then close_return K 1 errno [Printed.usage] st1
        else if atoi (argv.getD 2 "") ≤ 0 then close_return K 1 errno [Printed.size_error] st1
        else
          match K.sys_ioctl st1 IOCTL_SET_SIZE (atoi (argv.getD 2 "")) with
          | none => none
          | some (ret, errno2, st2) =>
            if ret < 0 then fail_io K "ioctl failed" errno2 [] st2
            else close_return K 0 errno2 [] st2
      else if argv.getD 1 "" = "push" then
        if argv.length ≠ 3 then close_return K 1 errno [Printed.usage] st1
        else
          match K.sys_write st1 (atoi (argv.getD 2 "")) sizeof_int with
          | none => none
          | some (ret, errno2, st2) =>
            if ret < 0 then
              if errno2 = ERANGE then close_return K 34 errno2 [Printed.full] st2
              else fail_io K "write failed" errno2 [] st2
            else close_return K 0 errno2 [] st2
      else if argv.getD 1 "" = "pop" then
        match K.sys_read st1 sizeof_int with
        | none => none
        | some (ret, errno2, stored, st2) =>
          if ret = 0 then close_return K 0 errno2 [Printed.null] st2
          else if ret < 0 then fail_io K "read failed" errno2 [] st2
          else close_return K 0 errno2 [Printed.value (stored.getD uninit)] st2
      else if argv.getD 1 "" = "unwind" then
        match unwind_loop K fuel uninit st1 with
        | none => none
        | some (ret, errno2, out, st2) =>
          if ret < 0 then fail_io K "read failed" errno2 out st2
          else close_return K 0 errno2 out st2
      else close_return K 1 errno [Printed.usage] st1

/-- The system-call convention: a handler's non-negative return value is the
value of the call and `errno` stays as it was (`errno0`); a negative return
value `-e` makes the call return -1 with `errno = e`. A handler that faults
never returns. -/
def syscall_result (errno0 : Int) : Outcome → Option (Int × Int × Option Int × int_stack)
  | Outcome.ret code st out =>
    if code < 0 then some (-1, -code, out, st) else some (code, errno0, out, st)
  | Outcome.oops _ => none

/-- The environment of the client when `/dev/int_stack` is the device of the
module: `open` succeeds (`device_open` returns 0) with some descriptor, here
3, and the other calls reach the handlers, with the client's own variables as
user buffers, so the copies from and to user space succeed. `close` succeeds
(`device_release` returns 0) and leaves both `errno` and the stack alone. `env`
is the behaviour of `kmalloc`, `perror_errno` what `perror` leaves in `errno`,
given what it found there. -/
def device_kernel (env : Option (Nat → Int)) (perror_errno : Int → Int) :
    Kernel int_stack :=
  Kernel.mk
    (fun st => some (3, 0, st))
    (fun st cmd size =>
      match syscall_result 0 (device_ioctl st cmd (some size) env) with
      | none => none
      | some (ret, errno, _, st1) => some (ret, errno, st1))
    (fun st value length =>
      match syscall_result 0 (device_write st length (some value)) with
      | none => none
      | some (ret, errno, _, st1) => some (ret, errno, st1))
    (fun st length => syscall_result 0 (device_read st length true))
    (fun st errno => (perror_errno errno, st))
    (fun st errno => (errno, st))

/-- The discipline of `errno`: a failing call leaves a nonzero value in it, and
no library call sets it to zero (`perror` and `close` leave a nonzero value
nonzero, whether they change it or not). -/
def sets_errno {σ : Type} (K : Kernel σ) : Prop :=
  (∀ st fd e st1, K.sys_open st = some (fd, e, st1) → fd < 0 → e ≠ 0) ∧
  (∀ st cmd size ret e st1, K.sys_ioctl st cmd size = some (ret, e, st1) → ret < 0 → e ≠ 0) ∧
  (∀ st v len ret e st1, K.sys_write st v len = some (ret, e, st1) → ret < 0 → e ≠ 0) ∧
  (∀ st len ret e stored st1,
    K.sys_read st len = some (ret, e, stored, st1) → ret < 0 → e ≠ 0) ∧
  (∀ st e, e ≠ 0 → (K.lib_perror st e).1 ≠ 0) ∧
  (∀ st e, e ≠ 0 → (K.sys_close st e).1 ≠ 0)

/-- How a run of the client ends, in the words of the spec's command-line
surface: the command succeeded, the invocation was malformed, an I/O call
failed, or a push found the stack full. -/
inductive Ending where
  | success
  | malformed
  | io_failure
  | stack_full
deriving DecidableEq

/-- The spec's `unwind`: pop repeatedly until a read delivers nothing; the
return value of that last read (0 for empty, negative for a failure), `none`
if `fuel` reads do not get there. -/
def spec_unwind_last {σ : Type} (K : Kernel σ) : Nat → σ → Option Int
  | 0, _ => none
  | fuel + 1, st =>
    match K.sys_read st sizeof_int with
    | none => none
    | some (ret, _, _, st1) => if 0 < ret then spec_unwind_last K fuel st1 else some ret

/-- The ending the spec's command-line surface assigns to a run, from the
arguments and the results of `open`, `ioctl`, `write` and `read` alone (this
is the specification side: it is written from the spec, not from `main`).
An invocation without a command is malformed. Otherwise the device is opened,
and a failure to open is an I/O failure. `set-size <n>` is malformed without
exactly one operand or with `n ≤ 0`, otherwise it resizes; `push <v>` is
malformed without exactly one operand, otherwise it pushes, a failure with
`ERANGE` being the full stack; `pop` pops once (empty is a success); `unwind`
pops until empty; any other command is malformed. A failing call is an I/O
failure. -/
def spec_ending {σ : Type} (K : Kernel σ) (atoi : String → Int) (fuel : Nat)
    (argv : List String) (st : σ) : Option Ending :=
  match argv with
  | [] => some Ending.malformed
  | [_] => some Ending.malformed
  | _ :: cmd :: operands =>
    match K.sys_open st with
    | none => none
    | some (fd, _, st1) =>
      if fd < 0 then some Ending.io_failure
      else if cmd = "set-size" then
        match operands with
        | [n] =>
          if atoi n ≤ 0 then some Ending.malformed
          else
            match K.sys_ioctl st1 IOCTL_SET_SIZE (atoi n) with
            | none => none
            | some (ret, _, _) =>
              if ret < 0 then some Ending.io_failure else some Ending.success
        | _ => some Ending.malformed
      else if cmd = "push" then
        match operands with
        | [v] =>
          match K.sys_write st1 (atoi v) sizeof_int with
          | none => none
          | some (ret, errno, _) =>
            if ret < 0 then
              if errno = ERANGE then some Ending.stack_full else some Ending.io_failure
            else some Ending.success
        | _ => some Ending.malformed
      else if cmd = "pop" then
        match K.sys_read st1 sizeof_int with
        | none => none
        | some (ret, _, _, _) =>
          if ret < 0 then some Ending.io_failure else some Ending.success
      else if cmd = "unwind" then
        match spec_unwind_last K fuel st1 with
        | none => none
        | some ret => if ret < 0 then some Ending.io_failure else some Ending.success
      else some Ending.malformed

/-! ## Lock discipline of the handlers -/

/-- What a handler does with the stack's lock and fields: `mutex_lock`,
`mutex_unlock`, and `access` for a statement that reads or writes
`stack->top`, `stack->max_size` or `stack->data` (the pointer or an element). -/
inductive LockEvent where
  | lock
  | unlock
  | access
deriving DecidableEq

/-- Handler `device_read` together with its lock events, in program order. -/
def device_read_traced (s : int_stack) (length : Nat) (copy_ok : Bool) :
    Outcome × List LockEvent :=
  if length < sizeof_int then (Outcome.ret (-EINVAL) s none, [])
  else if s.top = -1 then
    (Outcome.ret 0 s none, [LockEvent.lock, LockEvent.access, LockEvent.unlock])
  else
    match load s.data s.top with
    | none => (Outcome.oops s, [LockEvent.lock, LockEvent.access, LockEvent.access])
    | some value =>
      let s1 := int_stack.mk s.data (wrap32 (s.top - 1)) s.max_size
      (if copy_ok then Outcome.ret sizeof_int s1 (some value)
        else Outcome.ret (-EFAULT) s1 none,
        [LockEvent.lock, LockEvent.access, LockEvent.access, LockEvent.access,
          LockEvent.unlock])

/-- Handler `device_write` together with its lock events, in program order. -/
def device_write_traced (s : int_stack) (length : Nat) (user : Option Int) :
    Outcome × List LockEvent :=
  if length < sizeof_int then (Outcome.ret (-EINVAL) s none, [])
  else
    match user with
    | none => (Outcome.ret (-EFAULT) s none, [])
    | some value =>
      if 0 < s.max_size ∧ wrap32 (s.max_size - 1) ≤ s.top then
        (Outcome.ret (-ERANGE) s none,
          [LockEvent.lock, LockEvent.access, LockEvent.unlock])
      else
        let s1 := int_stack.mk s.data (wrap32 (s.top + 1)) s.max_size
        match store s1.data s1.top value with
        | none =>
          (Outcome.oops s1,
            [LockEvent.lock, LockEvent.access, LockEvent.access, LockEvent.access])
        | some buf =>
          (Outcome.ret sizeof_int (int_stack.mk (some buf) s1.top s1.max_size) none,
            [LockEvent.lock, LockEvent.access, LockEvent.access, LockEvent.access,
              LockEvent.unlock])

/-- The copy loop of `device_ioctl` together with its lock events: one access
of `stack->data` per iteration. -/
def copy_loop_traced (old : Option (List Int)) :
    Nat → Nat → Option (List Int) → Option (List Int) × List LockEvent
  | 0, _, new_data => (new_data, [])
  | k + 1, i, new_data =>
    match load old i with
    | none => (none, [LockEvent.access])
    | some x =>
      match store new_data i x with
      | none => (none, [LockEvent.access])
      | some blk =>
        ((copy_loop_traced old k (i + 1) (some blk)).1,
          LockEvent.access :: (copy_loop_traced old k (i + 1) (some blk)).2)

/-- Handler `device_ioctl` together with its lock events, in program order:
after `mutex_lock` and `kmalloc`, the computation of `copy_size`, the test of
`stack->data`, the loop, the `kfree` of `stack->data`, the three assignments
(the one to `top` behind its test) and `mutex_unlock`. -/
def device_ioctl_traced (s : int_stack) (cmd : Nat) (user : Option Int)
    (env : Option (Nat → Int)) : Outcome × List LockEvent :=
  if cmd = IOCTL_SET_SIZE then
    match user with
    | none => (Outcome.ret (-EFAULT) s none, [])
    | some size =>
      if size ≤ 0 then (Outcome.ret (-EINVAL) s none, [])
      else
        match kmalloc env size.toNat with
        | none => (Outcome.ret (-ENOMEM) s none, [LockEvent.lock, LockEvent.unlock])
        | some fresh =>
          let copy_size := if wrap32 (s.top + 1) < size then wrap32 (s.top + 1) else size
          let copied :=
            if s.data.isSome ∧ 0 < copy_size then
              copy_loop_traced s.data copy_size.toNat 0 (some fresh)
            else (some fresh, [])
          match copied.1 with
          | none =>
            (Outcome.oops s,
              [LockEvent.lock, LockEvent.access, LockEvent.access] ++ copied.2)
          | some new_data =>
            let top1 := if size ≤ s.top then wrap32 (size - 1) else s.top
            (Outcome.ret 0 (int_stack.mk (some new_data) top1 size) none,
              [LockEvent.lock, LockEvent.access, LockEvent.access] ++ copied.2 ++
                [LockEvent.access, LockEvent.access, LockEvent.access, LockEvent.access,
                  LockEvent.unlock])
  else (Outcome.ret (-EINVAL) s none, [])

/-- One event against the lock state (`some true`: held, `some false`: free,
`none`: the discipline has been broken): `lock` needs the lock free, `unlock`
and `access` need it held. -/
def lock_step : Option Bool → LockEvent → Option Bool
  | some false, LockEvent.lock => some true
  | some true, LockEvent.unlock => some false
  | some true, LockEvent.access => some true
  | _, _ => none

/-- The lock state after the events of a handler call that starts with the
lock free; `none` if some event broke the discipline. -/
def lock_after (es : List LockEvent) : Option Bool := es.foldl lock_step (some false)

/-- Whether the handler call returned. -/
def returned : Outcome → Bool
  | Outcome.ret _ _ _ => true
  | Outcome.oops _ => false

/-- A traced handler call keeps the lock discipline: every `lock` finds the
lock free, every `unlock` and every access finds it held, the lock is free
again exactly when the call returned (a call that faults dies holding it), and
a call that returned released the lock as many times as it acquired it. -/
def well_locked (r : Outcome × List LockEvent) : Prop :=
  lock_after r.2 = some (!returned r.1) ∧
    (returned r.1 = true → r.2.count LockEvent.lock = r.2.count LockEvent.unlock)

instance (r : Outcome × List LockEvent) : Decidable (well_locked r) := by
  unfold well_locked
  infer_instance

/-! ## Basic facts about the handlers -/

theorem wrap32_id (x : Int) (h1 : -2147483648 ≤ x) (h2 : x ≤ 2147483647) : wrap32 x = x := by
  unfold wrap32; omega

theorem initialized_iff (s : int_stack) :
    initialized s ↔ ∃ buf, s.data = some buf ∧ (buf.length : Int) = s.max_size ∧
      0 < s.max_size ∧ s.max_size ≤ 2147483647 ∧ -1 ≤ s.top ∧ s.top < s.max_size := by
  unfold initialized INT_MAX
  cases h : s.data with
  | none => simp
  | some buf => simp

theorem write_ok (buf : List Int) (top max_size : Int) (length : Nat) (v : Int)
    (hlen : (buf.length : Int) = max_size) (hmax : max_size ≤ 2147483647)
    (hlo : -1 ≤ top) (hhi : top + 1 < max_size) (hl : 4 ≤ length) :
    device_write (int_stack.mk (some buf) top max_size) length (some v) =
      Outcome.ret 4 (int_stack.mk (some (buf.set (top + 1).toNat v)) (top + 1) max_size) none := by
  have h1 : wrap32 (max_size - 1) = max_size - 1 := wrap32_id _ (by omega) (by omega)
  have h2 : wrap32 (top + 1) = top + 1 := wrap32_id _ (by omega) (by omega)
  have h3 : ¬ (length < 4) := by omega
  have h4 : ¬ (0 < max_size ∧ max_size - 1 ≤ top) := by omega
  have h5 : 0 ≤ top + 1 ∧ (top + 1).toNat < buf.length := by omega
  simp [device_write, sizeof_int, store, h1, h2, h3, h5]
  omega

theorem write_full (s : int_stack) (length : Nat) (v : Int)
    (hpos : 0 < s.max_size) (hmax : s.max_size ≤ 2147483647)
    (hfull : s.max_size - 1 ≤ s.top) (hl : 4 ≤ length) :
    device_write s length (some v) = Outcome.ret (-34) s none := by
  have h1 : wrap32 (s.max_size - 1) = s.max_size - 1 := wrap32_id _ (by omega) (by omega)
  have h3 : ¬ (length < 4) := by omega
  simp [device_write, sizeof_int, ERANGE, h1, h3, hpos, hfull]

theorem read_ok (buf : List Int) (top max_size : Int) (length : Nat)
    (hidx : top.toNat < buf.length) (hlo : 0 ≤ top) (hhi : top ≤ 2147483647)
    (hl : 4 ≤ length) :
    device_read (int_stack.mk (some buf) top max_size) length true =
      Outcome.ret 4 (int_stack.mk (some buf) (top - 1) max_size) buf[top.toNat]? := by
  have h2 : wrap32 (top - 1) = top - 1 := wrap32_id _ (by omega) (by omega)
  have h3 : ¬ (length < 4) := by omega
  have h4 : ¬ (top = -1) := by omega
  simp [device_read, sizeof_int, load, h2, h3, h4, hlo, List.getElem?_eq_getElem hidx]

theorem read_empty (s : int_stack) (length : Nat) (copy_ok : Bool)
    (hl : 4 ≤ length) (hempty : s.top = -1) :
    device_read s length copy_ok = Outcome.ret 0 s none := by
  have h3 : ¬ (length < 4) := by omega
  simp [device_read, sizeof_int, h3, hempty]

/-! ## The copy loop and the resize handler -/

theorem copy_loop_spec (src : List Int) (k : Nat) :
    ∀ (i : Nat) (dst : List Int), i + k ≤ src.length → i + k ≤ dst.length →
      ∃ out, copy_loop (some src) k i (some dst) = some out ∧ out.length = dst.length ∧
        ∀ j : Nat, out[j]? = if i ≤ j ∧ j < i + k then src[j]? else dst[j]? := by
  induction k with
  | zero =>
    intro i dst _ _
    refine ⟨dst, rfl, rfl, ?_⟩
    intro j
    have : ¬ (i ≤ j ∧ j < i + 0) := by omega
    rw [if_neg this]
  | succ k ih =>
    intro i dst hs hd
    have hi : i < src.length := by omega
    have hi2 : i < dst.length := by omega
    obtain ⟨out, h1, h2, h3⟩ := ih (i + 1) (dst.set i src[i]) (by omega) (by simp; omega)
    refine ⟨out, ?_, ?_, ?_⟩
    · simp [copy_loop, load, store, List.getElem?_eq_getElem hi, hi2, h1]
    · simpa using h2
    · intro j
      rw [h3 j, List.getElem?_set]
      by_cases hj : i = j
      · subst hj
        have a1 : ¬ (i + 1 ≤ i ∧ i < i + 1 + k) := by omega
        have a2 : (i ≤ i ∧ i < i + (k + 1)) := by omega
        rw [if_neg a1, if_pos a2]
        simp [hi2, List.getElem?_eq_getElem hi]
      · by_cases hc : i + 1 ≤ j ∧ j < i + 1 + k
        · have a2 : (i ≤ j ∧ j < i + (k + 1)) := by omega
          rw [if_pos hc, if_pos a2]
        · have a2 : ¬ (i ≤ j ∧ j < i + (k + 1)) := by omega
          rw [if_neg hc, if_neg a2]
          simp [hj]

theorem copy_loop_eq (src dst : List Int) (c : Nat) (hs : c ≤ src.length) (hd : c ≤ dst.length) :
    copy_loop (some src) c 0 (some dst) = some (src.take c ++ dst.drop c) := by
  obtain ⟨out, h1, h2, h3⟩ := copy_loop_spec src c 0 dst (by omega) (by omega)
  rw [h1]
  congr 1
  apply List.ext_getElem?
  intro j
  rw [h3 j]
  by_cases hj : j < c
  · have : (0 ≤ j ∧ j < 0 + c) := by omega
    rw [if_pos this, List.getElem?_append_left (by simp; omega), List.getElem?_take_of_lt hj]
  · have : ¬ (0 ≤ j ∧ j < 0 + c) := by omega
    rw [if_neg this, List.getElem?_append_right (by simp; omega), List.getElem?_drop]
    congr 1
    simp
    omega

theorem resize_ok (buf : List Int) (top max_size n : Int) (junk : Nat → Int)
    (hlen : (buf.length : Int) = max_size) (hmax : max_size ≤ 2147483647)
    (hlo : -1 ≤ top) (hhi : top < max_size) (hn : 0 < n) :
    device_ioctl (int_stack.mk (some buf) top max_size) IOCTL_SET_SIZE (some n) (some junk) =
      Outcome.ret 0
        (int_stack.mk
          (some (buf.take (min (top + 1) n).toNat ++
            ((List.range n.toNat).map junk).drop (min (top + 1) n).toNat))
          (min top (n - 1)) n) none := by
  have h2 : wrap32 (top + 1) = top + 1 := wrap32_id _ (by omega) (by omega)
  have h3 : ¬ (n ≤ 0) := by omega
  have hcs : (if top + 1 < n then top + 1 else n) = min (top + 1) n := by
    split <;> omega
  have htop : (if n ≤ top then wrap32 (n - 1) else top) = min top (n - 1) := by
    split
    · rw [wrap32_id _ (by omega) (by omega)]; omega
    · omega
  simp only [device_ioctl, kmalloc, h2, h3, hcs, htop, if_true, if_false, Option.isSome_some,
    true_and]
  by_cases hc : 0 < min (top + 1) n
  · rw [if_pos hc, copy_loop_eq _ _ _ (by omega) (by simp)]
  · rw [if_neg hc]
    have : (min (top + 1) n).toNat = 0 := by omega
    simp [this]

theorem resize_null (top max_size n : Int) (junk : Nat → Int) (hn : 0 < n) :
    device_ioctl (int_stack.mk none top max_size) IOCTL_SET_SIZE (some n) (some junk) =
      Outcome.ret 0
        (int_stack.mk (some ((List.range n.toNat).map junk))
          (if n ≤ top then wrap32 (n - 1) else top) n) none := by
  have h3 : ¬ (n ≤ 0) := by omega
  simp [device_ioctl, kmalloc, h3]

/-! ## One push, one pop, one resize on an initialized stack -/

theorem take_set_succ (l : List Int) (k : Nat) (v : Int) (h : k < l.length) :
    (l.set k v).take (k + 1) = l.take k ++ [v] := by
  have e : (l.set k v).take k = l.take k := by
    apply List.ext_getElem?
    intro i
    rw [List.getElem?_take, List.getElem?_take]
    split
    · rw [List.getElem?_set_ne (by omega)]
    · rfl
  rw [List.take_succ, e]
  simp [h]

theorem take_succ_get (l : List Int) (k : Nat) (h : k < l.length) :
    l.take (k + 1) = l.take k ++ [l[k]] := by
  rw [List.take_succ]
  simp [h]

theorem contents_length (s : int_stack) (hs : initialized s) :
    ((contents s).length : Int) = count s := by
  obtain ⟨buf, hd, hlen, hpos, hmax, hlo, hhi⟩ := (initialized_iff s).1 hs
  simp only [contents, count, hd, List.length_take]
  omega

theorem write_step (s : int_stack) (length : Nat) (v : Int) (hs : initialized s)
    (hroom : count s < s.max_size) (hl : 4 ≤ length) :
    ∃ s1, device_write s length (some v) = Outcome.ret 4 s1 none ∧ initialized s1 ∧
      s1.top = s.top + 1 ∧ s1.max_size = s.max_size ∧ contents s1 = contents s ++ [v] := by
  obtain ⟨buf, hd, hlen, hpos, hmax, hlo, hhi⟩ := (initialized_iff s).1 hs
  obtain ⟨data, top, max_size⟩ := s
  simp only [count] at hroom
  simp only at hd hlen hpos hmax hlo hhi hroom
  subst hd
  refine ⟨_, write_ok buf top max_size length v hlen hmax hlo hroom hl, ?_, rfl, rfl, ?_⟩
  · rw [initialized_iff]
    exact ⟨_, rfl, by simpa using hlen, hpos, hmax, by simp only; omega, hroom⟩
  · have hk : (top + 1).toNat < buf.length := by omega
    have e : (top + 1 + 1).toNat = (top + 1).toNat + 1 := by omega
    simp only [contents, e]
    exact take_set_succ buf _ v hk

theorem read_step (s : int_stack) (length : Nat) (hs : initialized s)
    (hne : 0 < count s) (hl : 4 ≤ length) :
    ∃ v s1, device_read s length true = Outcome.ret 4 s1 (some v) ∧ initialized s1 ∧
      s1.data = s.data ∧ s1.top = s.top - 1 ∧ s1.max_size = s.max_size ∧
      contents s = contents s1 ++ [v] := by
  obtain ⟨buf, hd, hlen, hpos, hmax, hlo, hhi⟩ := (initialized_iff s).1 hs
  obtain ⟨data, top, max_size⟩ := s
  simp only [count] at hne
  simp only at hd hlen hpos hmax hlo hhi hne
  subst hd
  have hk : top.toNat < buf.length := by omega
  refine ⟨buf[top.toNat], int_stack.mk (some buf) (top - 1) max_size, ?_, ?_, rfl, rfl, rfl, ?_⟩
  · rw [read_ok buf top max_size length hk (by omega) (by omega) hl,
      List.getElem?_eq_getElem hk]
  · rw [initialized_iff]
    exact ⟨_, rfl, hlen, hpos, hmax, by simp only; omega, by simp only; omega⟩
  · have e : (top + 1).toNat = top.toNat + 1 := by omega
    have e2 : (top - 1 + 1).toNat = top.toNat := by omega
    simp only [contents, e, e2]
    exact take_succ_get buf _ hk

theorem resize_step (s : int_stack) (n : Int) (junk : Nat → Int) (hs : initialized s)
    (hn : 0 < n) :
    ∃ s1, device_ioctl s IOCTL_SET_SIZE (some n) (some junk) = Outcome.ret 0 s1 none ∧
      s1.top = min s.top (n - 1) ∧ s1.max_size = n ∧
      contents s1 = (contents s).take n.toNat ∧
      ∃ buf1, s1.data = some buf1 ∧ (buf1.length : Int) = n := by
  obtain ⟨buf, hd, hlen, hpos, hmax, hlo, hhi⟩ := (initialized_iff s).1 hs
  obtain ⟨data, top, max_size⟩ := s
  simp only at hd hlen hpos hmax hlo hhi
  subst hd
  refine ⟨_, resize_ok buf top max_size n junk hlen hmax hlo hhi hn, rfl, rfl, ?_, _, rfl, ?_⟩
  · have e : (min top (n - 1) + 1).toNat = (min (top + 1) n).toNat := by omega
    have hc : (min (top + 1) n).toNat ≤ buf.length := by omega
    have e2 : min n.toNat (top + 1).toNat = (min (top + 1) n).toNat := by omega
    simp only [contents, e, List.take_take, e2]
    rw [List.take_append_of_le_length (by simp; omega)]
    simp
  · have hc : (min (top + 1) n).toNat ≤ buf.length := by omega
    simp only [List.length_append, List.length_take, List.length_drop, List.length_map,
      List.length_range]
    omega

theorem resize_step_initialized (s : int_stack) (n : Int) (junk : Nat → Int)
    (hs : initialized s) (hn : 0 < n) (hmax : n ≤ INT_MAX) :
    ∃ s1, device_ioctl s IOCTL_SET_SIZE (some n) (some junk) = Outcome.ret 0 s1 none ∧
      initialized s1 := by
  obtain ⟨s1, h1, h2, h3, _, buf1, h5, h6⟩ := resize_step s n junk hs hn
  obtain ⟨buf, hd, hlen, hpos, hmax0, hlo, hhi⟩ := (initialized_iff s).1 hs
  refine ⟨s1, h1, ?_⟩
  rw [initialized_iff]
  unfold INT_MAX at hmax
  exact ⟨buf1, h5, by omega, by omega, by omega, by omega, by omega⟩

theorem resize_init (n : Int) (junk : Nat → Int) (hn : 0 < n) :
    device_ioctl int_stack_init IOCTL_SET_SIZE (some n) (some junk) =
      Outcome.ret 0 (int_stack.mk (some ((List.range n.toNat).map junk)) (-1) n) none := by
  have h : ¬ (n ≤ -1) := by omega
  rw [int_stack_init, resize_null _ _ _ _ hn, if_neg h]

/-! ## Push and pop sequences -/

theorem pop_n_snoc (k : Nat) :
    ∀ (s s1 s2 : int_stack) (vs : List Int) (c v : Int),
      pop_n k s = some (vs, s1) →
      device_read s1 sizeof_int true = Outcome.ret c s2 (some v) →
      pop_n (k + 1) s = some (vs ++ [v], s2) := by
  induction k with
  | zero =>
    intro s s1 s2 vs c v h1 h2
    simp only [pop_n, Option.some.injEq, Prod.mk.injEq] at h1
    obtain ⟨rfl, rfl⟩ := h1
    simp [pop_n, h2]
  | succ k ih =>
    intro s s1 s2 vs c v h1 h2
    rw [pop_n] at h1
    cases hr : device_read s sizeof_int true with
    | oops st => rw [hr] at h1; simp at h1
    | ret code st out =>
      rw [hr] at h1
      cases out with
      | none => simp at h1
      | some w =>
        simp only at h1
        cases hp : pop_n k st with
        | none => rw [hp] at h1; simp at h1
        | some p =>
          obtain ⟨ws, t⟩ := p
          rw [hp] at h1
          simp only [Option.some.injEq, Prod.mk.injEq] at h1
          obtain ⟨rfl, rfl⟩ := h1
          have := ih st t s2 ws c v hp h2
          rw [pop_n, hr]
          simp only [this, List.cons_append]

theorem lifo_aux (vs : List Int) :
    ∀ s : int_stack, initialized s → count s + vs.length ≤ s.max_size →
      ∃ s1 s2, push_all s vs = some s1 ∧ pop_n vs.length s1 = some (vs.reverse, s2) ∧
        initialized s2 ∧ s2.top = s.top ∧ s2.max_size = s.max_size ∧
        contents s2 = contents s := by
  induction vs with
  | nil =>
    intro s hs _
    exact ⟨s, s, rfl, rfl, hs, rfl, rfl, rfl⟩
  | cons v rest ih =>
    intro s hs hcap
    simp only [List.length_cons, Nat.cast_add, Nat.cast_one] at hcap
    obtain ⟨sw, hw, hwi, hwt, hwm, hwc⟩ := write_step s 4 v hs (by omega) (by omega)
    obtain ⟨s1, s2, hp, hq, h2i, h2t, h2m, h2c⟩ :=
      ih sw hwi (by simp only [count] at hcap ⊢; omega)
    have hcnt : 0 < count s2 := by
      obtain ⟨_, _, _, _, _, hlo, _⟩ := (initialized_iff s).1 hs
      simp only [count]; omega
    obtain ⟨x, s3, hr, h3i, _, h3t, h3m, h3c⟩ := read_step s2 4 h2i hcnt (by omega)
    rw [h2c, hwc] at h3c
    obtain ⟨hc, hx⟩ := List.append_inj' h3c rfl
    simp only [List.cons.injEq, and_true] at hx
    subst hx
    refine ⟨s1, s3, ?_, ?_, h3i, by omega, by omega, hc.symm⟩
    · simp [push_all, sizeof_int, hw, hp]
    · simpa using pop_n_snoc rest.length s1 s2 s3 rest.reverse 4 v hq hr

/-- C1 (LIFO law). On an initialized stack with room for all of `vs`, every one
of the pushes succeeds, the next `vs.length` pops return exactly `vs` in reverse
order, and afterwards `top` (hence the count), `max_size` and the stored
contents are those from before the pushes. -/
theorem lifo_law (s : int_stack) (vs : List Int) (hs : initialized s)
    (hcap : count s + vs.length ≤ s.max_size) :
    ∃ s1 s2, push_all s vs = some s1 ∧ pop_n vs.length s1 = some (vs.reverse, s2) ∧
      count s2 = count s ∧ s2.max_size = s.max_size ∧ contents s2 = contents s := by
  obtain ⟨s1, s2, h1, h2, _, h4, h5, h6⟩ := lifo_aux vs s hs hcap
  exact ⟨s1, s2, h1, h2, by simp only [count, h4], h5, h6⟩

/-- Instance of the LIFO law: two pushes onto a three-slot stack holding one
element. -/
theorem lifo_law_witness :
    initialized (int_stack.mk (some [9, 0, 0]) 0 3) ∧
    ∃ s1 s2, push_all (int_stack.mk (some [9, 0, 0]) 0 3) [1, 2] = some s1 ∧
      pop_n [1, 2].length s1 = some ([1, 2].reverse, s2) ∧
      count s2 = count (int_stack.mk (some [9, 0, 0]) 0 3) ∧
      s2.max_size = (int_stack.mk (some [9, 0, 0]) 0 3).max_size ∧
      contents s2 = contents (int_stack.mk (some [9, 0, 0]) 0 3) :=
  ⟨by decide, lifo_law (int_stack.mk (some [9, 0, 0]) 0 3) [1, 2] (by decide) (by decide)⟩

/-! ## Single requests -/

/-- C2 (evaluation at the failing input). A 4-byte push issued in the state left
by `int_stack_init` passes the full-stack test (which is skipped while
`max_size` is 0), increments `top` to 0 and then stores through the `NULL`
buffer: the handler faults instead of returning an error, with `top = 0`. -/
theorem push_uninitialized_faults (v : Int) :
    device_write int_stack_init sizeof_int (some v) =
      Outcome.oops (int_stack.mk none 0 0) := by
  simp [device_write, int_stack_init, sizeof_int, store, wrap32]

/-- C3. A push on an initialized stack with `count = max_size` returns
`-ERANGE` and leaves the whole state (buffer, `top`, `max_size`) as it was. -/
theorem push_full (s : int_stack) (length : Nat) (v : Int) (hs : initialized s)
    (hfull : count s = s.max_size) (hl : sizeof_int ≤ length) :
    device_write s length (some v) = Outcome.ret (-ERANGE) s none := by
  obtain ⟨buf, hd, hlen, hpos, hmax, hlo, hhi⟩ := (initialized_iff s).1 hs
  simp only [count] at hfull
  exact write_full s length v hpos hmax (by omega) hl

/-- Instance of C3: a full three-slot stack rejects a fourth push. -/
theorem push_full_witness :
    initialized (int_stack.mk (some [1, 2, 3]) 2 3) ∧
    device_write (int_stack.mk (some [1, 2, 3]) 2 3) 4 (some 4) =
      Outcome.ret (-ERANGE) (int_stack.mk (some [1, 2, 3]) 2 3) none :=
  ⟨by decide, push_full (int_stack.mk (some [1, 2, 3]) 2 3) 4 4 (by decide) (by decide)
    (by decide)⟩

/-- C4. A resize to `n` with `0 < n < count` whose allocation succeeds returns
0; the new stack has count `n`, capacity `n` and a buffer of `n` slots, and its
contents are exactly the first `n` (oldest) elements of the old contents, in
order. -/
theorem resize_shrink (s : int_stack) (n : Int) (junk : Nat → Int) (hs : initialized s)
    (hn : 0 < n) (hlt : n < count s) :
    ∃ s1, device_ioctl s IOCTL_SET_SIZE (some n) (some junk) = Outcome.ret 0 s1 none ∧
      count s1 = n ∧ s1.max_size = n ∧
      contents s1 = (contents s).take n.toNat ∧ ((contents s1).length : Int) = n ∧
      ∃ buf1, s1.data = some buf1 ∧ (buf1.length : Int) = n := by
  obtain ⟨s1, h1, h2, h3, h4, h5⟩ := resize_step s n junk hs hn
  have hl := contents_length s hs
  simp only [count] at hlt hl
  refine ⟨s1, h1, by simp only [count]; omega, h3, h4, ?_, h5⟩
  rw [h4, List.length_take]
  omega

/-- Instance of C4: shrinking `[1, 2, 3]` to one slot keeps `[1]`. -/
theorem resize_shrink_witness :
    initialized (int_stack.mk (some [1, 2, 3]) 2 3) ∧
    ∃ s1, device_ioctl (int_stack.mk (some [1, 2, 3]) 2 3) IOCTL_SET_SIZE (some 1)
        (some (fun _ => 0)) = Outcome.ret 0 s1 none ∧
      count s1 = 1 ∧ s1.max_size = 1 ∧
      contents s1 = (contents (int_stack.mk (some [1, 2, 3]) 2 3)).take (1 : Int).toNat ∧
      ((contents s1).length : Int) = 1 ∧
      ∃ buf1, s1.data = some buf1 ∧ (buf1.length : Int) = 1 :=
  ⟨by decide, resize_shrink (int_stack.mk (some [1, 2, 3]) 2 3) 1 (fun _ => 0) (by decide)
    (by decide) (by decide)⟩

/-- C7. A read with a buffer of at least 4 bytes on a stack with `count = 0`
(initialized or not) returns 0, copies nothing out and leaves the state as it
was. -/
theorem pop_empty (s : int_stack) (length : Nat) (copy_ok : Bool)
    (hempty : count s = 0) (hl : sizeof_int ≤ length) :
    device_read s length copy_ok = Outcome.ret 0 s none := by
  simp only [count] at hempty
  exact read_empty s length copy_ok hl (by omega)

/-- Instance of C7 on the uninitialized stack. -/
theorem pop_empty_witness :
    device_read int_stack_init 4 true = Outcome.ret 0 int_stack_init none :=
  pop_empty int_stack_init 4 true (by decide) (by decide)

/-- C8. A resize request whose argument is `≤ 0` returns `-EINVAL` and leaves
`top`, `max_size` and the buffer as they were. -/
theorem resize_nonpositive (s : int_stack) (n : Int) (env : Option (Nat → Int))
    (hn : n ≤ 0) :
    device_ioctl s IOCTL_SET_SIZE (some n) env = Outcome.ret (-EINVAL) s none := by
  simp [device_ioctl, hn]

/-- Instance of C8: resize to 0 on a stack holding two elements. -/
theorem resize_nonpositive_witness :
    device_ioctl (int_stack.mk (some [1, 2, 3]) 1 3) IOCTL_SET_SIZE (some 0) none =
      Outcome.ret (-EINVAL) (int_stack.mk (some [1, 2, 3]) 1 3) none :=
  resize_nonpositive (int_stack.mk (some [1, 2, 3]) 1 3) 0 none (by decide)

/-- C9. A resize request with `n > 0` whose `kmalloc` fails returns `-ENOMEM`
and leaves `top`, `max_size` and the buffer as they were. -/
theorem resize_alloc_failure (s : int_stack) (n : Int) (hn : 0 < n) :
    device_ioctl s IOCTL_SET_SIZE (some n) none = Outcome.ret (-ENOMEM) s none := by
  have h : ¬ (n ≤ 0) := by omega
  simp [device_ioctl, kmalloc, h]

/-- Instance of C9: a failed resize to 5 on a stack holding two elements. -/
theorem resize_alloc_failure_witness :
    device_ioctl (int_stack.mk (some [1, 2, 3]) 1 3) IOCTL_SET_SIZE (some 5) none =
      Outcome.ret (-ENOMEM) (int_stack.mk (some [1, 2, 3]) 1 3) none :=
  resize_alloc_failure (int_stack.mk (some [1, 2, 3]) 1 3) 5 (by decide)

/-- C10. A push of `v` on an initialized stack with `count < max_size` returns
`sizeof(int)`; the count grows by one, `max_size` is unchanged, and the new
contents are the old contents followed by `v` (so `v` sits at position `count`
and positions `0 .. count - 1` are as before). -/
theorem push_appends (s : int_stack) (length : Nat) (v : Int) (hs : initialized s)
    (hroom : count s < s.max_size) (hl : sizeof_int ≤ length) :
    ∃ s1, device_write s length (some v) = Outcome.ret sizeof_int s1 none ∧
      count s1 = count s + 1 ∧ s1.max_size = s.max_size ∧
      contents s1 = contents s ++ [v] := by
  obtain ⟨s1, h1, _, h3, h4, h5⟩ := write_step s length v hs hroom hl
  exact ⟨s1, h1, by simp only [count, h3], h4, h5⟩

/-- Instance of C10: pushing 3 onto `[1, 2]` in a three-slot stack. -/
theorem push_appends_witness :
    initialized (int_stack.mk (some [1, 2, 0]) 1 3) ∧
    ∃ s1, device_write (int_stack.mk (some [1, 2, 0]) 1 3) 4 (some 3) =
        Outcome.ret sizeof_int s1 none ∧
      count s1 = count (int_stack.mk (some [1, 2, 0]) 1 3) + 1 ∧
      s1.max_size = (int_stack.mk (some [1, 2, 0]) 1 3).max_size ∧
      contents s1 = contents (int_stack.mk (some [1, 2, 0]) 1 3) ++ [3] :=
  ⟨by decide, push_appends (int_stack.mk (some [1, 2, 0]) 1 3) 4 3 (by decide) (by decide)
    (by decide)⟩

/-! ## Reading until empty -/

theorem pop_until_empty_top_neg (s : int_stack) (fuel : Nat) (h : s.top = -1) :
    pop_until_empty (fuel + 1) s = some ([], s) := by
  simp [pop_until_empty, read_empty s sizeof_int true (by decide) h]

theorem pop_until_empty_data (buf : List Int) (max_size : Int) (k : Nat) :
    ∀ fuel : Nat, k ≤ buf.length → k ≤ 2147483648 → k < fuel →
      pop_until_empty fuel (int_stack.mk (some buf) ((k : Int) - 1) max_size) =
        some ((buf.take k).reverse, int_stack.mk (some buf) (-1) max_size) := by
  induction k with
  | zero =>
    intro fuel _ _ hf
    obtain ⟨f, rfl⟩ : ∃ f, fuel = f + 1 := ⟨fuel - 1, by omega⟩
    simpa using pop_until_empty_top_neg (int_stack.mk (some buf) (-1) max_size) f rfl
  | succ k ih =>
    intro fuel hk hmax hf
    obtain ⟨f, rfl⟩ : ∃ f, fuel = f + 1 := ⟨fuel - 1, by omega⟩
    have e : ((k + 1 : Nat) : Int) - 1 = (k : Int) := by omega
    have hidx : (k : Int).toNat < buf.length := by simp; omega
    have hr := read_ok buf (k : Int) max_size sizeof_int hidx (by omega) (by omega) (by decide)
    have hk2 : k < buf.length := by omega
    have e2 : buf[(k : Int).toNat]? = some buf[k] := by
      simp [List.getElem?_eq_getElem hk2]
    rw [e2] at hr
    rw [e, pop_until_empty, hr]
    have hi := ih f (by omega) (by omega) (by omega)
    simp only
    rw [hi, take_succ_get buf k hk2, List.reverse_append]
    simp

theorem pop_until_empty_eq (s : int_stack) (buf : List Int) (fuel : Nat)
    (hd : s.data = some buf) (hlo : -1 ≤ s.top) (hidx : count s ≤ buf.length)
    (hhi : s.top ≤ 2147483647) (hf : count s < fuel) :
    pop_until_empty fuel s =
      some ((contents s).reverse, int_stack.mk s.data (-1) s.max_size) := by
  obtain ⟨data, top, max_size⟩ := s
  simp only [count] at hidx hf
  simp only at hd hlo hidx hhi hf
  subst hd
  have e : top = (((top + 1).toNat : Nat) : Int) - 1 := by omega
  have := pop_until_empty_data buf max_size (top + 1).toNat fuel (by omega) (by omega) (by omega)
  rw [← e] at this
  simpa [contents] using this

/-- C5. A resize to `n` with `n > 0` and `n ≥ count` whose allocation succeeds,
on an initialized stack or on the stack as `int_stack_init` leaves it, returns
0; the count is unchanged, the capacity becomes `n`, the contents (positions
`0 .. count - 1`) are unchanged, and popping until empty after the resize
delivers the same values as popping until empty before it: the old contents,
newest first. -/
theorem resize_grow (s : int_stack) (n : Int) (junk : Nat → Int)
    (hs : initialized s ∨ s = int_stack_init) (hn : 0 < n) (hge : count s ≤ n) :
    ∃ s1, device_ioctl s IOCTL_SET_SIZE (some n) (some junk) = Outcome.ret 0 s1 none ∧
      count s1 = count s ∧ s1.max_size = n ∧ contents s1 = contents s ∧
      ∀ fuel : Nat, count s < fuel →
        ∃ t1 t, pop_until_empty fuel s1 = some ((contents s).reverse, t1) ∧
          pop_until_empty fuel s = some ((contents s).reverse, t) := by
  rcases hs with hs | rfl
  · obtain ⟨s1, h1, h2, h3, h4, buf1, h5, h6⟩ := resize_step s n junk hs hn
    obtain ⟨buf, hd, hlen, hpos, hmax, hlo, hhi⟩ := (initialized_iff s).1 hs
    have hl := contents_length s hs
    simp only [count] at hge hl
    have hc : contents s1 = contents s := by
      rw [h4]
      exact List.take_of_length_le (by omega)
    have ht : s1.top = s.top := by omega
    refine ⟨s1, h1, by simp only [count, ht], h3, hc, ?_⟩
    intro fuel hf
    simp only [count] at hf
    have ha := pop_until_empty_eq s buf fuel hd hlo (by simp only [count]; omega)
      (by omega) (by simp only [count]; omega)
    have hb := pop_until_empty_eq s1 buf1 fuel h5 (by omega) (by simp only [count]; omega)
      (by omega) (by simp only [count]; omega)
    rw [hc] at hb
    exact ⟨_, _, hb, ha⟩
  · refine ⟨_, resize_init n junk hn, rfl, rfl, ?_, ?_⟩
    · simp [contents, int_stack_init]
    · intro fuel hf
      obtain ⟨f, rfl⟩ : ∃ f, fuel = f + 1 := ⟨fuel - 1, by simp [count, int_stack_init] at hf; omega⟩
      have ha := pop_until_empty_top_neg int_stack_init f rfl
      have hb := pop_until_empty_top_neg
        (int_stack.mk (some ((List.range n.toNat).map junk)) (-1) n) f rfl
      have hc : contents int_stack_init = [] := rfl
      rw [hc]
      exact ⟨_, _, hb, ha⟩

/-- Instance of C5: growing a three-slot stack holding `[1, 2]` to five slots. -/
theorem resize_grow_witness :
    (initialized (int_stack.mk (some [1, 2, 0]) 1 3) ∨
      int_stack.mk (some [1, 2, 0]) 1 3 = int_stack_init) ∧
    ∃ s1, device_ioctl (int_stack.mk (some [1, 2, 0]) 1 3) IOCTL_SET_SIZE (some 5)
        (some (fun _ => 0)) = Outcome.ret 0 s1 none ∧
      count s1 = count (int_stack.mk (some [1, 2, 0]) 1 3) ∧ s1.max_size = 5 ∧
      contents s1 = contents (int_stack.mk (some [1, 2, 0]) 1 3) ∧
      ∀ fuel : Nat, count (int_stack.mk (some [1, 2, 0]) 1 3) < fuel →
        ∃ t1 t,
          pop_until_empty fuel s1 =
            some ((contents (int_stack.mk (some [1, 2, 0]) 1 3)).reverse, t1) ∧
          pop_until_empty fuel (int_stack.mk (some [1, 2, 0]) 1 3) =
            some ((contents (int_stack.mk (some [1, 2, 0]) 1 3)).reverse, t) :=
  ⟨Or.inl (by decide), resize_grow (int_stack.mk (some [1, 2, 0]) 1 3) 5 (fun _ => 0)
    (Or.inl (by decide)) (by decide) (by decide)⟩

/-! ## Reachable states -/

theorem resize_nonpositive_aux (s : int_stack) (n : Int) (env : Option (Nat → Int))
    (hn : n ≤ 0) :
    device_ioctl s IOCTL_SET_SIZE (some n) env = Outcome.ret (-EINVAL) s none := by
  simp [device_ioctl, hn]

theorem read_total (s : int_stack) (length : Nat) (copy_ok : Bool) (hs : initialized s) :
    ∃ c s1 o, device_read s length copy_ok = Outcome.ret c s1 o ∧ initialized s1 := by
  by_cases hl : length < sizeof_int
  · refine ⟨-EINVAL, s, none, ?_, hs⟩
    simp [device_read, hl]
  · by_cases ht : s.top = -1
    · refine ⟨0, s, none, ?_, hs⟩
      simp [device_read, hl, ht]
    · obtain ⟨buf, hd, hlen, hpos, hmax, hlo, hhi⟩ := (initialized_iff s).1 hs
      have hk : s.top.toNat < buf.length := by omega
      have h0 : 0 ≤ s.top := by omega
      have hw : wrap32 (s.top - 1) = s.top - 1 := wrap32_id _ (by omega) (by omega)
      have hi : initialized (int_stack.mk (some buf) (s.top - 1) s.max_size) := by
        rw [initialized_iff]
        exact ⟨buf, rfl, hlen, hpos, hmax, by simp only; omega, by simp only; omega⟩
      cases copy_ok with
      | true =>
        refine ⟨sizeof_int, _, some buf[s.top.toNat], ?_, hi⟩
        simp [device_read, hl, ht, hd, load, h0, List.getElem?_eq_getElem hk, hw]
      | false =>
        refine ⟨-EFAULT, _, none, ?_, hi⟩
        simp [device_read, hl, ht, hd, load, h0, List.getElem?_eq_getElem hk, hw]

theorem write_total (s : int_stack) (length : Nat) (user : Option Int) (hs : initialized s) :
    ∃ c s1 o, device_write s length user = Outcome.ret c s1 o ∧ initialized s1 := by
  by_cases hl : length < sizeof_int
  · refine ⟨-EINVAL, s, none, ?_, hs⟩
    simp [device_write, hl]
  · cases user with
    | none =>
      refine ⟨-EFAULT, s, none, ?_, hs⟩
      simp [device_write, hl]
    | some v =>
      have hl4 : 4 ≤ length := by simp only [sizeof_int] at hl; omega
      obtain ⟨buf, hd, hlen, hpos, hmax, hlo, hhi⟩ := (initialized_iff s).1 hs
      by_cases hroom : count s < s.max_size
      · obtain ⟨s1, h1, h2, _⟩ := write_step s length v hs hroom hl4
        exact ⟨_, s1, none, h1, h2⟩
      · simp only [count] at hroom
        exact ⟨_, s, none, write_full s length v hpos hmax (by omega) hl4, hs⟩

theorem ioctl_total (s : int_stack) (cmd : Nat) (user : Option Int)
    (env : Option (Nat → Int)) (hs : initialized s)
    (hu : payload_is_int (Request.ioctl cmd user env)) :
    ∃ c s1 o, device_ioctl s cmd user env = Outcome.ret c s1 o ∧ initialized s1 := by
  by_cases hc : cmd = IOCTL_SET_SIZE
  · subst hc
    cases user with
    | none =>
      refine ⟨-EFAULT, s, none, ?_, hs⟩
      simp [device_ioctl]
    | some n =>
      by_cases hn : n ≤ 0
      · exact ⟨_, s, none, resize_nonpositive_aux s n env hn, hs⟩
      · cases env with
        | none =>
          refine ⟨-ENOMEM, s, none, ?_, hs⟩
          simp [device_ioctl, kmalloc, hn]
        | some junk =>
          simp only [payload_is_int, is_int] at hu
          obtain ⟨s1, h1, h2⟩ := resize_step_initialized s n junk hs (by omega) hu.2
          exact ⟨_, s1, none, h1, h2⟩
  · refine ⟨-EINVAL, s, none, ?_, hs⟩
    simp [device_ioctl, hc]

theorem exec_total (s : int_stack) (r : Request) (hs : initialized s)
    (hr : payload_is_int r) :
    ∃ c s1 o, exec s r = Outcome.ret c s1 o ∧ initialized s1 := by
  cases r with
  | read length copy_ok => exact read_total s length copy_ok hs
  | write length user => exact write_total s length user hs
  | ioctl cmd user env => exact ioctl_total s cmd user env hs hr

theorem run_total (rs : List Request) :
    ∀ s : int_stack, initialized s → (∀ r ∈ rs, payload_is_int r) →
      ∃ s1, run s rs = some s1 ∧ initialized s1 := by
  induction rs with
  | nil => intro s hs _; exact ⟨s, rfl, hs⟩
  | cons r rs ih =>
    intro s hs hr
    obtain ⟨c, s1, o, h1, h2⟩ := exec_total s r hs (hr r (List.mem_cons_self _ _))
    obtain ⟨s2, h3, h4⟩ := ih s1 h2 (fun x hx => hr x (List.mem_cons_of_mem _ hx))
    exact ⟨s2, by simp [run, h1, h3], h4⟩

theorem ioctl_init_cases (cmd : Nat) (user : Option Int) (env : Option (Nat → Int))
    (hu : payload_is_int (Request.ioctl cmd user env)) :
    (∃ c, c ≠ 0 ∧ device_ioctl int_stack_init cmd user env =
        Outcome.ret c int_stack_init none) ∨
    (∃ s1, device_ioctl int_stack_init cmd user env = Outcome.ret 0 s1 none ∧
        initialized s1) := by
  by_cases hc : cmd = IOCTL_SET_SIZE
  · subst hc
    cases user with
    | none =>
      refine Or.inl ⟨-EFAULT, by decide, ?_⟩
      simp [device_ioctl]
    | some n =>
      by_cases hn : n ≤ 0
      · exact Or.inl ⟨-EINVAL, by decide, resize_nonpositive_aux _ n env hn⟩
      · cases env with
        | none =>
          refine Or.inl ⟨-ENOMEM, by decide, ?_⟩
          simp [device_ioctl, kmalloc, hn]
        | some junk =>
          simp only [payload_is_int, is_int, INT_MAX] at hu
          refine Or.inr ⟨_, resize_init n junk (by omega), ?_⟩
          rw [initialized_iff]
          refine ⟨_, rfl, ?_, by simp only; omega, hu.2, by simp, by simp only; omega⟩
          simp only [List.length_map, List.length_range]
          omega
  · refine Or.inl ⟨-EINVAL, by decide, ?_⟩
    simp [device_ioctl, hc]

theorem write_init_cases (length : Nat) (user : Option Int) :
    (∃ c, device_write int_stack_init length user = Outcome.ret c int_stack_init none) ∨
    (∃ st, device_write int_stack_init length user = Outcome.oops st) := by
  by_cases hl : length < sizeof_int
  · refine Or.inl ⟨-EINVAL, ?_⟩
    simp [device_write, hl]
  · cases user with
    | none =>
      refine Or.inl ⟨-EFAULT, ?_⟩
      simp [device_write, hl]
    | some v =>
      refine Or.inr ⟨int_stack.mk none 0 0, ?_⟩
      simp [device_write, int_stack_init, hl, store, wrap32]

theorem read_init (length : Nat) (copy_ok : Bool) :
    ∃ c, device_read int_stack_init length copy_ok = Outcome.ret c int_stack_init none := by
  by_cases hl : length < sizeof_int
  · refine ⟨-EINVAL, ?_⟩
    simp [device_read, hl]
  · refine ⟨0, ?_⟩
    simp [device_read, hl, int_stack_init]

theorem exec_preserves (s s1 : int_stack) (r : Request) (c : Int) (o : Option Int)
    (hs : s = int_stack_init ∨ initialized s) (hr : payload_is_int r)
    (he : exec s r = Outcome.ret c s1 o) :
    s1 = int_stack_init ∨ initialized s1 := by
  rcases hs with rfl | hs
  · cases r with
    | read length copy_ok =>
      obtain ⟨c1, h⟩ := read_init length copy_ok
      simp only [exec, h, Outcome.ret.injEq] at he
      exact Or.inl he.2.1.symm
    | write length user =>
      rcases write_init_cases length user with ⟨c1, h⟩ | ⟨st, h⟩
      · simp only [exec, h, Outcome.ret.injEq] at he
        exact Or.inl he.2.1.symm
      · simp [exec, h] at he
    | ioctl cmd user env =>
      rcases ioctl_init_cases cmd user env hr with ⟨c1, _, h⟩ | ⟨s2, h, hi⟩
      · simp only [exec, h, Outcome.ret.injEq] at he
        exact Or.inl he.2.1.symm
      · simp only [exec, h, Outcome.ret.injEq] at he
        exact Or.inr (he.2.1 ▸ hi)
  · obtain ⟨c1, s2, o1, h, hi⟩ := exec_total s r hs hr
    simp only [h, Outcome.ret.injEq] at he
    exact Or.inr (he.2.1 ▸ hi)

theorem run_preserves (rs : List Request) :
    ∀ s s1 : int_stack, (s = int_stack_init ∨ initialized s) →
      (∀ r ∈ rs, payload_is_int r) → run s rs = some s1 →
      s1 = int_stack_init ∨ initialized s1 := by
  induction rs with
  | nil =>
    intro s s1 hs _ h
    simp only [run, Option.some.injEq] at h
    exact h ▸ hs
  | cons r rs ih =>
    intro s s1 hs hr h
    rw [run] at h
    cases he : exec s r with
    | oops st => simp [he] at h
    | ret c s2 o =>
      simp only [he] at h
      exact ih s2 s1 (exec_preserves s s2 r c o hs (hr r (List.mem_cons_self _ _)) he)
        (fun x hx => hr x (List.mem_cons_of_mem _ hx)) h

theorem ioctl_success_initialized (s s2 : int_stack) (cmd : Nat) (user : Option Int)
    (env : Option (Nat → Int)) (out : Option Int)
    (hs : s = int_stack_init ∨ initialized s)
    (hu : payload_is_int (Request.ioctl cmd user env))
    (he : device_ioctl s cmd user env = Outcome.ret 0 s2 out) : initialized s2 := by
  rcases hs with rfl | hs
  · rcases ioctl_init_cases cmd user env hu with ⟨c1, hc, h⟩ | ⟨s3, h, hi⟩
    · simp only [h, Outcome.ret.injEq] at he
      exact absurd he.1 hc
    · simp only [h, Outcome.ret.injEq] at he
      exact he.2.1 ▸ hi
  · obtain ⟨c1, s3, o1, h, hi⟩ := ioctl_total s cmd user env hs hu
    simp only [h, Outcome.ret.injEq] at he
    exact he.2.1 ▸ hi

/-- C6. Start from the state left by `int_stack_init`, serve any requests
`pre`, then a control request that returns 0 (a successful resize), then any
requests `post` (all `int` payloads being in the range of `int`). Then the run
of `post` completes, and in the state it ends in `0 ≤ count ≤ max_size`, that
is `-1 ≤ top ≤ max_size - 1`. -/
theorem count_within_capacity (pre post : List Request) (cmd : Nat) (user : Option Int)
    (env : Option (Nat → Int)) (s1 s2 : int_stack) (out : Option Int)
    (hpre : ∀ r ∈ pre, payload_is_int r)
    (hres : payload_is_int (Request.ioctl cmd user env))
    (hpost : ∀ r ∈ post, payload_is_int r)
    (h1 : run int_stack_init pre = some s1)
    (h2 : device_ioctl s1 cmd user env = Outcome.ret 0 s2 out) :
    ∃ s3, run s2 post = some s3 ∧ 0 ≤ count s3 ∧ count s3 ≤ s3.max_size ∧
      -1 ≤ s3.top ∧ s3.top ≤ s3.max_size - 1 := by
  have hJ := run_preserves pre int_stack_init s1 (Or.inl rfl) hpre h1
  have hi := ioctl_success_initialized s1 s2 cmd user env out hJ hres h2
  obtain ⟨s3, h3, h4⟩ := run_total post s2 hi hpost
  obtain ⟨buf, hd, hlen, hpos, hmax, hlo, hhi⟩ := (initialized_iff s3).1 h4
  exact ⟨s3, h3, by simp only [count]; omega, by simp only [count]; omega, hlo, by omega⟩

/-- Instance of C6: a pop on the fresh stack, a resize to two slots, then three
pushes (the third one refused) and a pop. -/
theorem count_within_capacity_witness :
    run int_stack_init [Request.read 4 true] = some int_stack_init ∧
    device_ioctl int_stack_init IOCTL_SET_SIZE (some 2) (some (fun _ => 0)) =
      Outcome.ret 0 (int_stack.mk (some [0, 0]) (-1) 2) none ∧
    ∃ s3, run (int_stack.mk (some [0, 0]) (-1) 2)
        [Request.write 4 (some 5), Request.write 4 (some 6), Request.write 4 (some 7),
          Request.read 4 true] = some s3 ∧
      0 ≤ count s3 ∧ count s3 ≤ s3.max_size ∧ -1 ≤ s3.top ∧ s3.top ≤ s3.max_size - 1 :=
  ⟨by decide, by decide,
    count_within_capacity [Request.read 4 true]
      [Request.write 4 (some 5), Request.write 4 (some 6), Request.write 4 (some 7),
        Request.read 4 true]
      IOCTL_SET_SIZE (some 2) (some (fun _ => 0)) int_stack_init
      (int_stack.mk (some [0, 0]) (-1) 2) none
      (by decide) (by decide) (by decide) (by decide) (by decide)⟩

/-! ## Pop, transfer failures, payload length, capacity -/

/-- C11. A read with a buffer of at least 4 bytes whose copy-out succeeds, on
an initialized stack with `count > 0`, returns `sizeof(int)` and delivers a
value `v` such that the old contents are the new contents followed by `v`: `v`
is the element at position `count - 1` and positions `0 .. count - 2` are kept.
The count drops by one and `max_size` is unchanged. -/
theorem pop_returns_top (s : int_stack) (length : Nat) (hs : initialized s)
    (hne : 0 < count s) (hl : sizeof_int ≤ length) :
    ∃ v s1, device_read s length true = Outcome.ret sizeof_int s1 (some v) ∧
      contents s = contents s1 ++ [v] ∧ count s1 = count s - 1 ∧
      s1.max_size = s.max_size := by
  obtain ⟨v, s1, h1, _, _, h4, h5, h6⟩ := read_step s length hs hne hl
  exact ⟨v, s1, h1, h6, by simp only [count, h4]; omega, h5⟩

/-- Instance of C11: popping 3 off `[1, 2, 3]`. -/
theorem pop_returns_top_witness :
    initialized (int_stack.mk (some [1, 2, 3]) 2 3) ∧
    ∃ v s1, device_read (int_stack.mk (some [1, 2, 3]) 2 3) 4 true =
        Outcome.ret sizeof_int s1 (some v) ∧
      contents (int_stack.mk (some [1, 2, 3]) 2 3) = contents s1 ++ [v] ∧
      count s1 = count (int_stack.mk (some [1, 2, 3]) 2 3) - 1 ∧
      s1.max_size = (int_stack.mk (some [1, 2, 3]) 2 3).max_size :=
  ⟨by decide, pop_returns_top (int_stack.mk (some [1, 2, 3]) 2 3) 4 (by decide) (by decide)
    (by decide)⟩

/-- C12 (evaluation at the failing input). A read on a stack holding
`[1, 2, 3]` whose `copy_to_user` fails returns `-EFAULT`, but `top` has
already been decremented: the state is not the one from before the request,
and the element 3 is no longer on the stack. -/
theorem read_copy_failure_pops :
    device_read (int_stack.mk (some [1, 2, 3]) 2 3) 4 false =
        Outcome.ret (-EFAULT) (int_stack.mk (some [1, 2, 3]) 1 3) none ∧
      contents (int_stack.mk (some [1, 2, 3]) 1 3) = [1, 2] := by
  decide

/-- A failed `copy_from_user` in a write or control request returns `-EFAULT`
with the state untouched: the sibling paths of the read path of C12. -/
theorem copy_from_user_failure (s : int_stack) (length : Nat)
    (env : Option (Nat → Int)) (hl : sizeof_int ≤ length) :
    device_write s length none = Outcome.ret (-EFAULT) s none ∧
      device_ioctl s IOCTL_SET_SIZE none env = Outcome.ret (-EFAULT) s none := by
  have h : ¬ (length < sizeof_int) := by omega
  simp [device_write, device_ioctl, h]

/-- C13 (counterexample). An 8-byte write on an empty three-slot stack is not
rejected: it returns `sizeof(int)` and pushes the value. -/
theorem write_long_accepted :
    device_write (int_stack.mk (some [0, 0, 0]) (-1) 3) 8 (some 7) =
      Outcome.ret sizeof_int (int_stack.mk (some [7, 0, 0]) 0 3) none := by
  decide

/-- C13 (amended). A write whose payload is shorter than 4 bytes returns
`-EINVAL` with the stack untouched, whatever the payload; a write of more than
4 bytes is not rejected for its length: it does exactly what the 4-byte write
of the same leading `int` does. -/
theorem write_length_check (s : int_stack) (length : Nat) (user : Option Int) :
    (length < sizeof_int → device_write s length user = Outcome.ret (-EINVAL) s none) ∧
      (sizeof_int < length → device_write s length user = device_write s sizeof_int user) := by
  constructor
  · intro h
    simp [device_write, h]
  · intro h
    have h1 : ¬ (length < sizeof_int) := by omega
    simp [device_write, h1]

/-- Instance of C13 (amended): a 3-byte write and a 9-byte write. -/
theorem write_length_check_witness :
    device_write (int_stack.mk (some [1, 0, 0]) 0 3) 3 (some 7) =
        Outcome.ret (-EINVAL) (int_stack.mk (some [1, 0, 0]) 0 3) none ∧
      device_write (int_stack.mk (some [1, 0, 0]) 0 3) 9 (some 7) =
        device_write (int_stack.mk (some [1, 0, 0]) 0 3) sizeof_int (some 7) :=
  ⟨(write_length_check (int_stack.mk (some [1, 0, 0]) 0 3) 3 (some 7)).1 (by decide),
    (write_length_check (int_stack.mk (some [1, 0, 0]) 0 3) 9 (some 7)).2 (by decide)⟩

/-- C14. Whatever a read or a write request does (return with any code, or
fault), `max_size` afterwards is `max_size` before. -/
theorem max_size_only_by_resize (s : int_stack) (length : Nat) (copy_ok : Bool)
    (user : Option Int) :
    (final_state (device_read s length copy_ok)).max_size = s.max_size ∧
      (final_state (device_write s length user)).max_size = s.max_size := by
  constructor
  · unfold device_read
    split
    · rfl
    · split
      · rfl
      · split
        · rfl
        · cases copy_ok <;> rfl
  · unfold device_write
    split
    · rfl
    · split
      · rfl
      · split
        · rfl
        · simp only
          split <;> rfl

/-- C20. A read whose buffer is shorter than 4 bytes returns `-EINVAL` with
the stack untouched: nothing is popped. -/
theorem read_short_rejected (s : int_stack) (length : Nat) (copy_ok : Bool)
    (hl : length < sizeof_int) :
    device_read s length copy_ok = Outcome.ret (-EINVAL) s none := by
  simp [device_read, hl]

/-- Instance of C20: a 3-byte read on `[1, 2, 3]`. -/
theorem read_short_rejected_witness :
    device_read (int_stack.mk (some [1, 2, 3]) 2 3) 3 true =
      Outcome.ret (-EINVAL) (int_stack.mk (some [1, 2, 3]) 2 3) none :=
  read_short_rejected (int_stack.mk (some [1, 2, 3]) 2 3) 3 true (by decide)

/-- C19. On an initialized stack, a resize to `a` followed by a resize to `b`
(both positive, both allocations succeeding) leaves capacity `b`, count
`min (count, a, b)` and as contents the first `min (count, a, b)` elements of
the original contents, so what a shrink dropped does not come back with a
later grow. A second resize to `a` right after the first one changes neither
count, nor capacity, nor contents. -/
theorem resize_twice (s : int_stack) (a b : Int) (junk1 junk2 : Nat → Int)
    (hs : initialized s) (ha : 0 < a) (hb : 0 < b) (hamax : a ≤ INT_MAX) :
    ∃ s1 s2 s3,
      device_ioctl s IOCTL_SET_SIZE (some a) (some junk1) = Outcome.ret 0 s1 none ∧
      device_ioctl s1 IOCTL_SET_SIZE (some b) (some junk2) = Outcome.ret 0 s2 none ∧
      s2.max_size = b ∧ count s2 = min (count s) (min a b) ∧
      contents s2 = (contents s).take (min (count s) (min a b)).toNat ∧
      device_ioctl s1 IOCTL_SET_SIZE (some a) (some junk2) = Outcome.ret 0 s3 none ∧
      count s3 = count s1 ∧ s3.max_size = s1.max_size ∧ contents s3 = contents s1 := by
  obtain ⟨s1, h1, h1t, h1m, h1c, buf1, h1d, h1l⟩ := resize_step s a junk1 hs ha
  obtain ⟨_, hx, hi1⟩ := resize_step_initialized s a junk1 hs ha hamax
  rw [h1] at hx
  simp only [Outcome.ret.injEq, and_true, true_and] at hx
  subst hx
  obtain ⟨s2, h2, h2t, h2m, h2c, _⟩ := resize_step s1 b junk2 hi1 hb
  obtain ⟨s3, h3, h3t, h3m, h3c, _⟩ := resize_step s1 a junk2 hi1 ha
  have hl := contents_length s hs
  have hl1 := contents_length s1 hi1
  simp only [count] at hl hl1
  refine ⟨s1, s2, s3, h1, h2, h2m, by simp only [count]; omega, ?_, h3,
    by simp only [count]; omega, by omega, ?_⟩
  · rw [h2c, h1c, List.take_take]
    apply List.ext_getElem?
    intro i
    rw [List.getElem?_take, List.getElem?_take]
    simp only [count]
    by_cases hi : i < (contents s).length
    · have e : (i < min b.toNat a.toNat) ↔ (i < (min (s.top + 1) (min a b)).toNat) := by omega
      by_cases h : i < min b.toNat a.toNat
      · rw [if_pos h, if_pos (e.1 h)]
      · rw [if_neg h, if_neg (fun h2 => h (e.2 h2))]
    · rw [List.getElem?_eq_none (by omega)]
      simp
  · rw [h3c]
    exact List.take_of_length_le (by omega)

/-- Instance of C19: `[1, 2, 3]` resized to 2 and then to 5. -/
theorem resize_twice_witness :
    initialized (int_stack.mk (some [1, 2, 3]) 2 3) ∧
    ∃ s1 s2 s3,
      device_ioctl (int_stack.mk (some [1, 2, 3]) 2 3) IOCTL_SET_SIZE (some 2)
        (some (fun _ => 0)) = Outcome.ret 0 s1 none ∧
      device_ioctl s1 IOCTL_SET_SIZE (some 5) (some (fun _ => 9)) = Outcome.ret 0 s2 none ∧
      s2.max_size = 5 ∧
      count s2 = min (count (int_stack.mk (some [1, 2, 3]) 2 3)) (min 2 5) ∧
      contents s2 = (contents (int_stack.mk (some [1, 2, 3]) 2 3)).take
        (min (count (int_stack.mk (some [1, 2, 3]) 2 3)) (min 2 5)).toNat ∧
      device_ioctl s1 IOCTL_SET_SIZE (some 2) (some (fun _ => 9)) = Outcome.ret 0 s3 none ∧
      count s3 = count s1 ∧ s3.max_size = s1.max_size ∧ contents s3 = contents s1 :=
  ⟨by decide, resize_twice (int_stack.mk (some [1, 2, 3]) 2 3) 2 5 (fun _ => 0) (fun _ => 9)
    (by decide) (by decide) (by decide) (by decide)⟩

/-! ## The client -/

theorem unwind_loop_of_spec {σ : Type} (K : Kernel σ) (fuel : Nat) :
    ∀ (value : Int) (st : σ) (ret : Int), spec_unwind_last K fuel st = some ret →
      ∃ e out st2 st0 stored, unwind_loop K fuel value st = some (ret, e, out, st2) ∧
        K.sys_read st0 sizeof_int = some (ret, e, stored, st2) ∧ ¬ (0 < ret) := by
  induction fuel with
  | zero => intro value st ret h; simp [spec_unwind_last] at h
  | succ fuel ih =>
    intro value st ret h
    rw [spec_unwind_last] at h
    cases hr : K.sys_read st sizeof_int with
    | none => simp [hr] at h
    | some r =>
      obtain ⟨r1, e1, stored, st1⟩ := r
      simp only [hr] at h
      by_cases hpos : 0 < r1
      · simp only [hpos, if_true] at h
        obtain ⟨e, out, st2, st0, stored0, h1, h2, h3⟩ := ih (stored.getD value) st1 ret h
        exact ⟨e, Printed.value (stored.getD value) :: out, st2, st0, stored0,
          by simp [unwind_loop, hr, hpos, h1], h2, h3⟩
      · simp only [hpos, if_false, Option.some.injEq] at h
        subst h
        exact ⟨e1, [], st1, st, stored, by simp [unwind_loop, hr, hpos], hr, hpos⟩

/-- C15 (counterexample). The code 1 of a malformed invocation and the code 34
of a full-stack push are also codes of I/O failures. With `open` failing and
`errno` at `EPERM = 1` (left alone by `perror`), `pop` is an I/O failure that
returns 1, as does the invocation without a command; with `read` failing and
`errno` at 34 (left alone by `perror` and `close`), `pop` is an I/O failure
that returns 34, as does the push on a full stack. -/
theorem usage_code_not_dedicated :
    (spec_ending (Kernel.mk (fun st => some (-1, 1, st)) (fun st _ _ => some (0, 0, st))
          (fun st _ _ => some (4, 0, st)) (fun st _ => some (0, 0, none, st))
          (fun st e => (e, st)) (fun st e => (e, st)))
        (fun _ => 0) 1 ["kernel_stack", "pop"] () = some Ending.io_failure ∧
      main (Kernel.mk (fun st => some (-1, 1, st)) (fun st _ _ => some (0, 0, st))
          (fun st _ _ => some (4, 0, st)) (fun st _ => some (0, 0, none, st))
          (fun st e => (e, st)) (fun st e => (e, st)))
        (fun _ => 0) 0 1 ["kernel_stack", "pop"] () =
        some (1, [Printed.perror "Failed to open device" 1], ())) ∧
    (spec_ending (Kernel.mk (fun st => some (-1, 1, st)) (fun st _ _ => some (0, 0, st))
          (fun st _ _ => some (4, 0, st)) (fun st _ => some (0, 0, none, st))
          (fun st e => (e, st)) (fun st e => (e, st)))
        (fun _ => 0) 1 ["kernel_stack"] () = some Ending.malformed ∧
      main (Kernel.mk (fun st => some (-1, 1, st)) (fun st _ _ => some (0, 0, st))
          (fun st _ _ => some (4, 0, st)) (fun st _ => some (0, 0, none, st))
          (fun st e => (e, st)) (fun st e => (e, st)))
        (fun _ => 0) 0 1 ["kernel_stack"] () = some (1, [Printed.usage], ())) ∧
    (spec_ending (Kernel.mk (fun st => some (3, 0, st)) (fun st _ _ => some (0, 0, st))
          (fun st _ _ => some (4, 0, st)) (fun st _ => some (-1, 34, none, st))
          (fun st e => (e, st)) (fun st e => (e, st)))
        (fun _ => 0) 1 ["kernel_stack", "pop"] () = some Ending.io_failure ∧
      main (Kernel.mk (fun st => some (3, 0, st)) (fun st _ _ => some (0, 0, st))
          (fun st _ _ => some (4, 0, st)) (fun st _ => some (-1, 34, none, st))
          (fun st e => (e, st)) (fun st e => (e, st)))
        (fun _ => 0) 0 1 ["kernel_stack", "pop"] () =
        some (34, [Printed.perror "read failed" 34], ())) ∧
    (spec_ending (Kernel.mk (fun st => some (3, 0, st)) (fun st _ _ => some (0, 0, st))
          (fun st _ _ => some (-1, 34, st)) (fun st _ => some (0, 0, none, st))
          (fun st e => (e, st)) (fun st e => (e, st)))
        (fun _ => 5) 1 ["kernel_stack", "push", "5"] () = some Ending.stack_full ∧
      main (Kernel.mk (fun st => some (3, 0, st)) (fun st _ _ => some (0, 0, st))
          (fun st _ _ => some (-1, 34, st)) (fun st _ => some (0, 0, none, st))
          (fun st e => (e, st)) (fun st e => (e, st)))
        (fun _ => 5) 0 1 ["kernel_stack", "push", "5"] () =
        some (34, [Printed.full], ())) := by
  decide

theorem fail_io_code {σ : Type} (K : Kernel σ) (msg : String) (e : Int) (out : List Printed)
    (st : σ) (herr : sets_errno K) (he : e ≠ 0) :
    ∃ code out1 st1, fail_io K msg e out st = some (code, out1, st1) ∧ code ≠ 0 :=
  ⟨_, _, _, rfl, herr.2.2.2.2.2 _ _ (herr.2.2.2.2.1 _ _ he)⟩

theorem fail_open_code {σ : Type} (K : Kernel σ) (msg : String) (e : Int) (st : σ)
    (herr : sets_errno K) (he : e ≠ 0) :
    ∃ code out1 st1, fail_open K msg e st = some (code, out1, st1) ∧ code ≠ 0 :=
  ⟨_, _, _, rfl, herr.2.2.2.2.1 _ _ he⟩

/-- C15 (amended). Over any environment that keeps the discipline of `errno`,
whenever the spec assigns an ending to a run (the calls return and the fuel
suffices), `main` returns, and its return value is 0 exactly when the ending
is success, 1 when the invocation is malformed, 34 when a push found the stack
full, and nonzero when an I/O call failed. -/
theorem main_exit_codes {σ : Type} (K : Kernel σ) (atoi : String → Int) (uninit : Int)
    (fuel : Nat) (argv : List String) (st : σ) (v : Ending)
    (herr : sets_errno K)
    (hv : spec_ending K atoi fuel argv st = some v) :
    ∃ code out st1, main K atoi uninit fuel argv st = some (code, out, st1) ∧
      (code = 0 ↔ v = Ending.success) ∧ (v = Ending.malformed → code = 1) ∧
      (v = Ending.stack_full → code = 34) ∧ (v = Ending.io_failure → code ≠ 0) := by
  have hopen := herr.1
  have hioctl := herr.2.1
  have hwrite := herr.2.2.1
  have hread := herr.2.2.2.1
  cases argv with
  | nil =>
    simp only [spec_ending, Option.some.injEq] at hv
    subst hv
    exact ⟨1, [Printed.usage], st, by simp [main], by simp, by simp, by simp, by simp⟩
  | cons a rest =>
    cases rest with
    | nil =>
      simp only [spec_ending, Option.some.injEq] at hv
      subst hv
      exact ⟨1, [Printed.usage], st, by simp [main], by simp, by simp, by simp, by simp⟩
    | cons cmd ops =>
      have hlen : ¬ ((a :: cmd :: ops).length < 2) := by simp
      have hcmd : (a :: cmd :: ops).getD 1 "" = cmd := rfl
      simp only [spec_ending] at hv
      unfold main
      simp only [hlen, if_false, hcmd]
      cases ho : K.sys_open st with
      | none => simp [ho] at hv
      | some r =>
        obtain ⟨fd, e0, st0⟩ := r
        simp only [ho] at hv ⊢
        by_cases hfd : fd < 0
        · simp only [hfd, if_true, Option.some.injEq] at hv ⊢
          subst hv
          obtain ⟨code, out1, st1, h1, h2⟩ :=
            fail_open_code K "Failed to open device" e0 st0 herr (hopen _ _ _ _ ho hfd)
          exact ⟨code, out1, st1, h1, by simp [h2], by simp, by simp, fun _ => h2⟩
        · simp only [hfd, if_false] at hv ⊢
          by_cases hs : cmd = "set-size"
          · simp only [hs, if_true] at hv ⊢
            cases ops with
            | nil =>
              simp only [Option.some.injEq] at hv
              subst hv
              exact ⟨1, _, _, rfl, by simp, by simp, by simp, by simp⟩
            | cons n ops2 =>
              cases ops2 with
              | cons m ops3 =>
                simp only [Option.some.injEq] at hv
                subst hv
                have h3 : (a :: "set-size" :: n :: m :: ops3).length ≠ 3 := by simp
                simp only [h3, ne_eq, not_false_eq_true, if_true]
                exact ⟨1, _, _, rfl, by simp, by simp, by simp, by simp⟩
              | nil =>
                have h3 : ¬ ((a :: "set-size" :: [n]).length ≠ 3) := by simp
                have hn : (a :: "set-size" :: [n]).getD 2 "" = n := rfl
                simp only [h3, if_false, hn]
                simp only at hv
                by_cases hsz : atoi n ≤ 0
                · simp only [hsz, if_true, Option.some.injEq] at hv ⊢
                  subst hv
                  exact ⟨1, _, _, rfl, by simp, by simp, by simp, by simp⟩
                · simp only [hsz, if_false] at hv ⊢
                  cases hc : K.sys_ioctl st0 IOCTL_SET_SIZE (atoi n) with
                  | none => simp [hc] at hv
                  | some r =>
                    obtain ⟨ret, e2, st2⟩ := r
                    simp only [hc] at hv ⊢
                    by_cases hneg : ret < 0
                    · simp only [hneg, if_true, Option.some.injEq] at hv ⊢
                      subst hv
                      obtain ⟨code, out1, st1, h1, h2⟩ :=
                        fail_io_code K "ioctl failed" e2 [] st2 herr
                          (hioctl _ _ _ _ _ _ hc hneg)
                      exact ⟨code, out1, st1, h1, by simp [h2], by simp, by simp, fun _ => h2⟩
                    · simp only [hneg, if_false, Option.some.injEq] at hv ⊢
                      subst hv
                      exact ⟨0, _, _, rfl, by simp, by simp, by simp, by simp⟩
          · simp only [hs, if_false] at hv ⊢
            by_cases hp : cmd = "push"
            · simp only [hp, if_true] at hv ⊢
              cases ops with
              | nil =>
                simp only [Option.some.injEq] at hv
                subst hv
                exact ⟨1, _, _, rfl, by simp, by simp, by simp, by simp⟩
              | cons n ops2 =>
                cases ops2 with
                | cons m ops3 =>
                  simp only [Option.some.injEq] at hv
                  subst hv
                  have h3 : (a :: "push" :: n :: m :: ops3).length ≠ 3 := by simp
                  simp only [h3, ne_eq, not_false_eq_true, if_true]
                  exact ⟨1, _, _, rfl, by simp, by simp, by simp, by simp⟩
                | nil =>
                  have h3 : ¬ ((a :: "push" :: [n]).length ≠ 3) := by simp
                  have hn : (a :: "push" :: [n]).getD 2 "" = n := rfl
                  simp only [h3, if_false, hn]
                  simp only at hv
                  cases hc : K.sys_write st0 (atoi n) sizeof_int with
                  | none => simp [hc] at hv
                  | some r =>
                    obtain ⟨ret, e2, st2⟩ := r
                    simp only [hc] at hv ⊢
                    by_cases hneg : ret < 0
                    · simp only [hneg, if_true] at hv ⊢
                      by_cases hfull : e2 = ERANGE
                      · simp only [hfull, if_true, Option.some.injEq] at hv ⊢
                        subst hv
                        exact ⟨34, _, _, rfl, by simp, by simp, by simp, by simp⟩
                      · simp only [hfull, if_false, Option.some.injEq] at hv ⊢
                        subst hv
                        obtain ⟨code, out1, st1, h1, h2⟩ :=
                          fail_io_code K "write failed" e2 [] st2 herr
                            (hwrite _ _ _ _ _ _ hc hneg)
                        exact ⟨code, out1, st1, h1, by simp [h2], by simp, by simp,
                          fun _ => h2⟩
                    · simp only [hneg, if_false, Option.some.injEq] at hv ⊢
                      subst hv
                      exact ⟨0, _, _, rfl, by simp, by simp, by simp, by simp⟩
            · simp only [hp, if_false] at hv ⊢
              by_cases hq : cmd = "pop"
              · simp only [hq, if_true] at hv ⊢
                cases hc : K.sys_read st0 sizeof_int with
                | none => simp [hc] at hv
                | some r =>
                  obtain ⟨ret, e2, stored, st2⟩ := r
                  simp only [hc] at hv ⊢
                  by_cases hneg : ret < 0
                  · have hz : ¬ (ret = 0) := by omega
                    simp only [hneg, hz, if_true, if_false, Option.some.injEq] at hv ⊢
                    subst hv
                    obtain ⟨code, out1, st1, h1, h2⟩ :=
                      fail_io_code K "read failed" e2 [] st2 herr
                        (hread _ _ _ _ _ _ hc hneg)
                    exact ⟨code, out1, st1, h1, by simp [h2], by simp, by simp, fun _ => h2⟩
                  · simp only [hneg, if_false, Option.some.injEq] at hv ⊢
                    subst hv
                    by_cases hz : ret = 0
                    · simp only [hz, if_true]
                      exact ⟨0, _, _, rfl, by simp, by simp, by simp, by simp⟩
                    · simp only [hz, if_false]
                      exact ⟨0, _, _, rfl, by simp, by simp, by simp, by simp⟩
              · simp only [hq, if_false] at hv ⊢
                by_cases hu : cmd = "unwind"
                · simp only [hu, if_true] at hv ⊢
                  cases hl : spec_unwind_last K fuel st0 with
                  | none => simp [hl] at hv
                  | some ret =>
                    simp only [hl] at hv
                    obtain ⟨e2, out2, st2, st3, stored, h1, h2, _⟩ :=
                      unwind_loop_of_spec K fuel uninit st0 ret hl
                    simp only [h1]
                    by_cases hneg : ret < 0
                    · simp only [hneg, if_true, Option.some.injEq] at hv ⊢
                      subst hv
                      obtain ⟨code, out1, st1, h3, h4⟩ :=
                        fail_io_code K "read failed" e2 out2 st2 herr
                          (hread _ _ _ _ _ _ h2 hneg)
                      exact ⟨code, out1, st1, h3, by simp [h4], by simp, by simp,
                        fun _ => h4⟩
                    · simp only [hneg, if_false, Option.some.injEq] at hv ⊢
                      subst hv
                      exact ⟨0, _, _, rfl, by simp, by simp, by simp, by simp⟩
                · simp only [hu, if_false, Option.some.injEq] at hv ⊢
                  subst hv
                  exact ⟨1, _, _, rfl, by simp, by simp, by simp, by simp⟩

theorem syscall_result_errno (o : Outcome) (ret e : Int) (out : Option Int)
    (st : int_stack) (h : syscall_result 0 o = some (ret, e, out, st)) (hneg : ret < 0) :
    e ≠ 0 := by
  cases o with
  | oops st0 => simp [syscall_result] at h
  | ret code st0 out0 =>
    simp only [syscall_result] at h
    split at h
    · simp only [Option.some.injEq, Prod.mk.injEq] at h
      omega
    · simp only [Option.some.injEq, Prod.mk.injEq] at h
      omega

theorem device_kernel_sets_errno (env : Option (Nat → Int)) (perror_errno : Int → Int)
    (hp : ∀ e, e ≠ 0 → perror_errno e ≠ 0) :
    sets_errno (device_kernel env perror_errno) := by
  refine ⟨?_, ?_, ?_, ?_, ?_, ?_⟩
  · intro st fd e st1 h hneg
    simp only [device_kernel, Option.some.injEq, Prod.mk.injEq] at h
    omega
  · intro st cmd size ret e st1 h hneg
    simp only [device_kernel] at h
    split at h
    · simp at h
    · rename_i r1 e1 o1 s1 hs
      simp only [Option.some.injEq, Prod.mk.injEq] at h
      obtain ⟨rfl, rfl, rfl⟩ := h
      exact syscall_result_errno _ _ _ _ _ hs hneg
  · intro st v len ret e st1 h hneg
    simp only [device_kernel] at h
    split at h
    · simp at h
    · rename_i r1 e1 o1 s1 hs
      simp only [Option.some.injEq, Prod.mk.injEq] at h
      obtain ⟨rfl, rfl, rfl⟩ := h
      exact syscall_result_errno _ _ _ _ _ hs hneg
  · intro st len ret e stored st1 h hneg
    exact syscall_result_errno _ _ _ _ _ h hneg
  · intro st e he
    exact hp e he
  · intro st e he
    exact he

/-- Instance of C15 (amended): `set-size 5` against the device when `kmalloc`
fails, with a `perror` that leaves 22 in `errno`: the spec's ending is an I/O
failure, and `main` returns a nonzero code. -/
theorem main_exit_codes_witness :
    sets_errno (device_kernel none (fun _ => 22)) ∧
    spec_ending (device_kernel none (fun _ => 22)) (fun _ => 5) 1
        ["kernel_stack", "set-size", "5"] (int_stack.mk (some [1, 2]) 1 2) =
      some Ending.io_failure ∧
    ∃ code out st1,
      main (device_kernel none (fun _ => 22)) (fun _ => 5) 0 1
          ["kernel_stack", "set-size", "5"] (int_stack.mk (some [1, 2]) 1 2) =
        some (code, out, st1) ∧
      (code = 0 ↔ Ending.io_failure = Ending.success) ∧
      (Ending.io_failure = Ending.malformed → code = 1) ∧
      (Ending.io_failure = Ending.stack_full → code = 34) ∧
      (Ending.io_failure = Ending.io_failure → code ≠ 0) :=
  ⟨device_kernel_sets_errno none (fun _ => 22) (fun _ _ => by simp), by decide,
    main_exit_codes (device_kernel none (fun _ => 22)) (fun _ => 5) 0 1
      ["kernel_stack", "set-size", "5"] (int_stack.mk (some [1, 2]) 1 2) Ending.io_failure
      (device_kernel_sets_errno none (fun _ => 22) (fun _ _ => by simp)) (by decide)⟩

theorem unwind_loop_top_neg (env : Option (Nat → Int)) (perror_errno : Int → Int)
    (s : int_stack) (fuel : Nat) (value : Int) (h : s.top = -1) :
    unwind_loop (device_kernel env perror_errno) (fuel + 1) value s = some (0, 0, [], s) := by
  simp [unwind_loop, device_kernel, syscall_result,
    read_empty s sizeof_int true (by decide) h]

theorem unwind_loop_data (env : Option (Nat → Int)) (perror_errno : Int → Int)
    (buf : List Int) (max_size : Int) (k : Nat) :
    ∀ (fuel : Nat) (value : Int), k ≤ buf.length → k ≤ 2147483648 → k < fuel →
      unwind_loop (device_kernel env perror_errno) fuel value
          (int_stack.mk (some buf) ((k : Int) - 1) max_size) =
        some (0, 0, ((buf.take k).reverse).map Printed.value,
          int_stack.mk (some buf) (-1) max_size) := by
  induction k with
  | zero =>
    intro fuel value _ _ hf
    obtain ⟨f, rfl⟩ : ∃ f, fuel = f + 1 := ⟨fuel - 1, by omega⟩
    simpa using unwind_loop_top_neg env perror_errno
      (int_stack.mk (some buf) (-1) max_size) f value rfl
  | succ k ih =>
    intro fuel value hk hmax hf
    obtain ⟨f, rfl⟩ : ∃ f, fuel = f + 1 := ⟨fuel - 1, by omega⟩
    have e : ((k + 1 : Nat) : Int) - 1 = (k : Int) := by omega
    have hidx : (k : Int).toNat < buf.length := by simp; omega
    have hr := read_ok buf (k : Int) max_size sizeof_int hidx (by omega) (by omega) (by decide)
    have hk2 : k < buf.length := by omega
    have e2 : buf[(k : Int).toNat]? = some buf[k] := by
      simp [List.getElem?_eq_getElem hk2]
    rw [e2] at hr
    have hi := ih f buf[k] (by omega) (by omega) (by omega)
    have hread : (device_kernel env perror_errno).sys_read
        (int_stack.mk (some buf) (k : Int) max_size) sizeof_int =
          some (4, 0, some buf[k], int_stack.mk (some buf) ((k : Int) - 1) max_size) := by
      simp [device_kernel, hr, syscall_result]
    rw [e, unwind_loop]
    simp only [hread, Option.getD_some, hi]
    rw [take_succ_get buf k hk2, List.reverse_append]
    simp

/-- C16. Against the device, on an initialized stack or on the stack as
`int_stack_init` leaves it, the `unwind` command (given enough fuel for its
`count + 1` reads) returns 0, prints exactly the contents, newest element
first and oldest last, one line each, and leaves the stack with `top = -1`
and `data`, `max_size` as they were. -/
theorem unwind_prints_newest_first (s : int_stack) (env : Option (Nat → Int))
    (perror_errno : Int → Int) (atoi : String → Int) (uninit : Int) (fuel : Nat)
    (prog : String) (hs : initialized s ∨ s = int_stack_init) (hf : count s < fuel) :
    main (device_kernel env perror_errno) atoi uninit fuel [prog, "unwind"] s =
      some (0, ((contents s).reverse).map Printed.value,
        int_stack.mk s.data (-1) s.max_size) := by
  have hloop : unwind_loop (device_kernel env perror_errno) fuel uninit s =
      some (0, 0, ((contents s).reverse).map Printed.value,
        int_stack.mk s.data (-1) s.max_size) := by
    rcases hs with hs | rfl
    · obtain ⟨buf, hd, hlen, hpos, hmax, hlo, hhi⟩ := (initialized_iff s).1 hs
      obtain ⟨data, top, max_size⟩ := s
      simp only [count] at hf
      simp only at hd hlen hpos hmax hlo hhi hf
      subst hd
      have e : top = (((top + 1).toNat : Nat) : Int) - 1 := by omega
      have := unwind_loop_data env perror_errno buf max_size (top + 1).toNat fuel uninit
        (by omega) (by omega) (by omega)
      rw [← e] at this
      simpa [contents] using this
    · obtain ⟨f, rfl⟩ : ∃ f, fuel = f + 1 :=
        ⟨fuel - 1, by simp [count, int_stack_init] at hf; omega⟩
      simpa [contents, int_stack_init] using
        unwind_loop_top_neg env perror_errno int_stack_init f uninit rfl
  have h1 : (device_kernel env perror_errno).sys_open s = some (3, 0, s) := rfl
  have h2 : ∀ st e, ((device_kernel env perror_errno).sys_close st e).2 = st :=
    fun _ _ => rfl
  simp [main, h1, hloop, close_return, h2]

/-- Instance of C16: unwinding `[1, 2, 3]`. -/
theorem unwind_prints_newest_first_witness :
    (initialized (int_stack.mk (some [1, 2, 3]) 2 3) ∨
      int_stack.mk (some [1, 2, 3]) 2 3 = int_stack_init) ∧
    main (device_kernel none (fun _ => 22)) (fun _ => 0) 0 4 ["kernel_stack", "unwind"]
        (int_stack.mk (some [1, 2, 3]) 2 3) =
      some (0, ((contents (int_stack.mk (some [1, 2, 3]) 2 3)).reverse).map Printed.value,
        int_stack.mk (int_stack.mk (some [1, 2, 3]) 2 3).data (-1)
          (int_stack.mk (some [1, 2, 3]) 2 3).max_size) :=
  ⟨Or.inl (by decide), unwind_prints_newest_first (int_stack.mk (some [1, 2, 3]) 2 3) none
    (fun _ => 22) (fun _ => 0) 0 4 "kernel_stack" (Or.inl (by decide)) (by decide)⟩

/-! ## Lock discipline -/

theorem copy_loop_traced_fst (old : Option (List Int)) (k : Nat) :
    ∀ (i : Nat) (new_data : Option (List Int)),
      (copy_loop_traced old k i new_data).1 = copy_loop old k i new_data := by
  induction k with
  | zero => intro i new_data; rfl
  | succ k ih =>
    intro i new_data
    simp only [copy_loop_traced, copy_loop]
    split
    · rfl
    · split
      · rfl
      · exact ih _ _

theorem copy_loop_traced_events (old : Option (List Int)) (k : Nat) :
    ∀ (i : Nat) (new_data : Option (List Int)) (rest : List LockEvent),
      ((copy_loop_traced old k i new_data).2 ++ rest).foldl lock_step (some true) =
        rest.foldl lock_step (some true) ∧
      (copy_loop_traced old k i new_data).2.count LockEvent.lock = 0 ∧
      (copy_loop_traced old k i new_data).2.count LockEvent.unlock = 0 := by
  induction k with
  | zero => intro i new_data rest; simp [copy_loop_traced]
  | succ k ih =>
    intro i new_data rest
    simp only [copy_loop_traced]
    split
    · simp [lock_step]
    · split
      · simp [lock_step]
      · obtain ⟨h1, h2, h3⟩ := ih (i + 1) (some ‹List Int›) rest
        refine ⟨?_, ?_, ?_⟩
        · simpa [lock_step] using h1
        · simpa using h2
        · simpa using h3

theorem read_traced_ok (s : int_stack) (length : Nat) (copy_ok : Bool) :
    (device_read_traced s length copy_ok).1 = device_read s length copy_ok ∧
      well_locked (device_read_traced s length copy_ok) := by
  unfold device_read_traced device_read well_locked
  split
  · refine ⟨rfl, ?_, ?_⟩ <;> simp [lock_after, lock_step, returned]
  · split
    · refine ⟨rfl, ?_, ?_⟩ <;> simp [lock_after, lock_step, returned]
    · split
      · refine ⟨rfl, ?_, ?_⟩ <;> simp [lock_after, lock_step, returned]
      · cases copy_ok
        · refine ⟨rfl, ?_, ?_⟩ <;> simp [lock_after, lock_step, returned]
        · refine ⟨rfl, ?_, ?_⟩ <;> simp [lock_after, lock_step, returned]

theorem write_traced_ok (s : int_stack) (length : Nat) (user : Option Int) :
    (device_write_traced s length user).1 = device_write s length user ∧
      well_locked (device_write_traced s length user) := by
  unfold device_write_traced device_write well_locked
  split
  · refine ⟨rfl, ?_, ?_⟩ <;> simp [lock_after, lock_step, returned]
  · split
    · refine ⟨rfl, ?_, ?_⟩ <;> simp [lock_after, lock_step, returned]
    · split
      · refine ⟨rfl, ?_, ?_⟩ <;> simp [lock_after, lock_step, returned]
      · simp only
        split
        · refine ⟨rfl, ?_, ?_⟩ <;> simp [lock_after, lock_step, returned]
        · refine ⟨rfl, ?_, ?_⟩ <;> simp [lock_after, lock_step, returned]

theorem ioctl_tail_ok (s : int_stack) (size : Int) (c : Option (List Int) × List LockEvent)
    (plain : Option (List Int))
    (h2 : ∀ rest, (c.2 ++ rest).foldl lock_step (some true) = rest.foldl lock_step (some true))
    (h3 : c.2.count LockEvent.lock = 0) (h4 : c.2.count LockEvent.unlock = 0) :
    c.1 = plain →
    (match c.1 with
      | none =>
        (Outcome.oops s, [LockEvent.lock, LockEvent.access, LockEvent.access] ++ c.2)
      | some new_data =>
        (Outcome.ret 0 (int_stack.mk (some new_data)
            (if size ≤ s.top then wrap32 (size - 1) else s.top) size) none,
          [LockEvent.lock, LockEvent.access, LockEvent.access] ++ c.2 ++
            [LockEvent.access, LockEvent.access, LockEvent.access, LockEvent.access,
              LockEvent.unlock])).1 =
      (match plain with
        | none => Outcome.oops s
        | some new_data =>
          Outcome.ret 0 (int_stack.mk (some new_data)
            (if size ≤ s.top then wrap32 (size - 1) else s.top) size) none) ∧
    well_locked
      (match c.1 with
        | none =>
          (Outcome.oops s, [LockEvent.lock, LockEvent.access, LockEvent.access] ++ c.2)
        | some new_data =>
          (Outcome.ret 0 (int_stack.mk (some new_data)
              (if size ≤ s.top then wrap32 (size - 1) else s.top) size) none,
            [LockEvent.lock, LockEvent.access, LockEvent.access] ++ c.2 ++
              [LockEvent.access, LockEvent.access, LockEvent.access, LockEvent.access,
                LockEvent.unlock])) := by
  intro h1
  subst h1
  obtain ⟨o, es⟩ := c
  simp only at h2 h3 h4
  cases o with
  | none =>
    refine ⟨rfl, ?_, ?_⟩
    · have := h2 []
      simp only [List.append_nil] at this
      simp [lock_after, lock_step, returned, this]
    · simp [returned]
  | some nd =>
    refine ⟨rfl, ?_, ?_⟩
    · simp [lock_after, lock_step, returned, h2]
    · intro _
      simp [List.count_append, h3, h4]

theorem copied_ok (old : Option (List Int)) (cond : Prop) [Decidable cond] (k : Nat)
    (fresh : List Int) :
    (if cond then copy_loop_traced old k 0 (some fresh) else (some fresh, [])).1 =
        (if cond then copy_loop old k 0 (some fresh) else some fresh) ∧
    (∀ rest,
      ((if cond then copy_loop_traced old k 0 (some fresh) else (some fresh, [])).2 ++
          rest).foldl lock_step (some true) = rest.foldl lock_step (some true)) ∧
    (if cond then copy_loop_traced old k 0 (some fresh)
      else (some fresh, [])).2.count LockEvent.lock = 0 ∧
    (if cond then copy_loop_traced old k 0 (some fresh)
      else (some fresh, [])).2.count LockEvent.unlock = 0 := by
  by_cases h : cond
  · simp only [if_pos h]
    exact ⟨copy_loop_traced_fst _ _ _ _,
      fun rest => (copy_loop_traced_events _ _ _ _ rest).1,
      (copy_loop_traced_events old k 0 (some fresh) []).2.1,
      (copy_loop_traced_events old k 0 (some fresh) []).2.2⟩
  · refine ⟨?_, ?_, ?_, ?_⟩ <;> simp [h]

theorem ioctl_traced_ok (s : int_stack) (cmd : Nat) (user : Option Int)
    (env : Option (Nat → Int)) :
    (device_ioctl_traced s cmd user env).1 = device_ioctl s cmd user env ∧
      well_locked (device_ioctl_traced s cmd user env) := by
  by_cases hc : cmd = IOCTL_SET_SIZE
  · cases user with
    | none =>
      refine ⟨?_, ?_, ?_⟩ <;>
        simp [device_ioctl_traced, device_ioctl, hc, lock_after, lock_step, returned]
    | some size =>
      by_cases hn : size ≤ 0
      · refine ⟨?_, ?_, ?_⟩ <;>
          simp [device_ioctl_traced, device_ioctl, hc, hn, lock_after, lock_step, returned]
      · cases env with
        | none =>
          refine ⟨?_, ?_, ?_⟩ <;>
            simp [device_ioctl_traced, device_ioctl, hc, hn, kmalloc, lock_after, lock_step,
              returned]
        | some junk =>
          obtain ⟨k1, k2, k3, k4⟩ := copied_ok s.data
            (s.data.isSome ∧
              0 < (if wrap32 (s.top + 1) < size then wrap32 (s.top + 1) else size))
            (if wrap32 (s.top + 1) < size then wrap32 (s.top + 1) else size).toNat
            ((List.range size.toNat).map junk)
          have key := ioctl_tail_ok s size _ _ k2 k3 k4 k1
          unfold device_ioctl_traced device_ioctl
          simp only [hc, if_true, hn, if_false, kmalloc]
          exact key
  · refine ⟨?_, ?_, ?_⟩ <;>
      simp [device_ioctl_traced, device_ioctl, hc, lock_after, lock_step, returned]

/-- C18. Each handler, traced with its `mutex_lock`, `mutex_unlock` and field
accesses in program order, computes what the untraced handler computes, and on
every path: `lock` is only taken with the lock free, accesses of `top`,
`max_size` and `data` and `unlock` only happen with the lock held, a call that
returns has the lock free again and has released it as many times as it
acquired it. (A call that faults never returns; it dies holding the lock.) -/
theorem handlers_lock_discipline (s : int_stack) (length cmd : Nat) (copy_ok : Bool)
    (user : Option Int) (env : Option (Nat → Int)) :
    ((device_read_traced s length copy_ok).1 = device_read s length copy_ok ∧
      well_locked (device_read_traced s length copy_ok)) ∧
    ((device_write_traced s length user).1 = device_write s length user ∧
      well_locked (device_write_traced s length user)) ∧
    ((device_ioctl_traced s cmd user env).1 = device_ioctl s cmd user env ∧
      well_locked (device_ioctl_traced s cmd user env)) :=
  ⟨read_traced_ok s length copy_ok, write_traced_ok s length user,
    ioctl_traced_ok s cmd user env⟩

end IntStack
